import Mathlib

/-!
Metric emission engine of the GitLab CI pipelines exporter

A shallow embedding of `lib/exporter/metrics.go` and the properties of its
status emission, its pipeline-variable emission and the registration of its
predefined families.

Modelling conventions.

* A `prometheus.GaugeVec` is modelled by its content: a map from label value
  tuples to the value of the series stored under that tuple (`none`: no series).
  The vector's methods are those of `client_golang`: `WithLabelValues`
  (get or create, a new series starts at 0), `DeleteLabelValues`, and `Set` /
  `Inc` on the gauge handle obtained from `WithLabelValues`.
* Label value tuples are taken to have the arity the family declares.
  `client_golang` aborts `WithLabelValues` on a tuple of another arity; that check
  belongs to the library and is not part of this model.
* Gauge values are `float64` in Go. The code below only ever stores 0 and 1 and
  adds 1, so the values it handles are integers; they are modelled in `Int`, and
  `Inc` rounds the sum to the nearest `float64`, ties to the even significand, as
  the addition of `float64` does: it is exact up to 2^53 and no longer beyond.
* A Go `error` is modelled by its message (`err.Error()`), `none` being `nil`; the
  error of `RegisterDefaultMetrics` is represented by the family it reports.
* A `prometheus.Registry` is modelled by the list of the families registered in it.
* `log.Debugf` has no effect on the registry and is left out.
-/

namespace Exporter

/-! ## The gauge vector -/

/-- Content of a `prometheus.GaugeVec`: the series stored under each label value tuple. -/
@[ext]
structure GaugeVec where
  metrics : List String → Option Int

/-- Number of bits by which the natural number `a` exceeds the 53 bits of the significand
of a `float64`; `fuel` bounds the search and `a` itself is always enough. -/
def float64ExcessBits : Nat → Nat → Nat
  | 0, _ => 0
  | fuel + 1, a => if a < 2 ^ 53 then 0 else float64ExcessBits fuel (a / 2) + 1

/-- The integer that the nearest `float64` of the integer `x` holds, a tie going to the even
significand (the rounding of IEEE 754 that Go's `float64` arithmetic uses). -/
def roundFloat64 (x : Int) : Int :=
  let a := x.natAbs
  let e := float64ExcessBits a a
  let q := a / 2 ^ e
  let r := a % 2 ^ e
  let q' := if 2 * r > 2 ^ e ∨ (2 * r = 2 ^ e ∧ q % 2 = 1) then q + 1 else q
  if x < 0 then -((q' * 2 ^ e : Nat) : Int) else ((q' * 2 ^ e : Nat) : Int)

namespace GaugeVec

/-- A gauge vector holding no series, as `prometheus.NewGaugeVec` returns it. -/
def empty : GaugeVec := ⟨fun _ => none⟩

/-- Value read for a label tuple, an absent series counting as 0. -/
def value (g : GaugeVec) (lvs : List String) : Int :=
  (g.metrics lvs).getD 0

/-- Get-or-create of `GaugeVec.WithLabelValues`: an absent series is created with value 0. -/
def WithLabelValues (g : GaugeVec) (lvs : List String) : GaugeVec :=
  ⟨fun k => if k = lvs then
      (match g.metrics lvs with
       | some v => some v
       | none => some 0)
    else g.metrics k⟩

/-- Removal of a series by `GaugeVec.DeleteLabelValues`; the returned flag is ignored by the caller. -/
def DeleteLabelValues (g : GaugeVec) (lvs : List String) : GaugeVec :=
  ⟨fun k => if k = lvs then none else g.metrics k⟩

/-- Effect of `Gauge.Set` on the series stored under `lvs`. -/
def Set (g : GaugeVec) (lvs : List String) (v : Int) : GaugeVec :=
  ⟨fun k => if k = lvs then (g.metrics lvs).map (fun _ => v) else g.metrics k⟩

/-- Effect of `Gauge.Inc`, the `float64` addition of 1, on the series stored under `lvs`. -/
def Inc (g : GaugeVec) (lvs : List String) : GaugeVec :=
  ⟨fun k => if k = lvs then (g.metrics lvs).map (fun v => roundFloat64 (v + 1))
    else g.metrics k⟩

end GaugeVec

/-! ## Status emission -/

/-- Body of the loop of `emitStatusMetric` for one member `s` of `statuses`. -/
def emitStatusStep (labelValues : List String) (status : String) (sparseMetrics : Bool)
    (metric : GaugeVec) (s : String) : GaugeVec :=
  let args := labelValues ++ [s]
  if s = status then
    (metric.WithLabelValues args).Set args 1
  else
    if sparseMetrics then
      metric.DeleteLabelValues args
    else
      (metric.WithLabelValues args).Set args 0

/-- The function `emitStatusMetric`: one pass over `statuses`, in order. -/
def emitStatusMetric (metric : GaugeVec) (labelValues : List String) (statuses : List String)
    (status : String) (sparseMetrics : Bool) : GaugeVec :=
  statuses.foldl (emitStatusStep labelValues status sparseMetrics) metric

/-! ## Pipeline variables -/

/-- The type `gitlab.PipelineVariable` of go-gitlab. -/
structure PipelineVariable where
  Key : String
  Value : String
  VariableType : String

/-- Modelled from the spec: the entity descriptor `projectDetails` is declared outside
`metrics.go`; it carries the project id handed to the fetch and the ordered label
values of the entity (project, topics, ref). -/
structure projectDetails where
  pID : Int
  entityLabels : List String

/-- Modelled from the spec: the helper `augmentLabelValues` is defined outside `metrics.go`;
it yields the entity's label values followed by the additional ones
(`entity_labels + [joined_keys]`). -/
def augmentLabelValues (details : projectDetails) (additional : List String) : List String :=
  details.entityLabels ++ additional

/-- Go's `strings.Join`. -/
def stringsJoin (elems : List String) (sep : String) : String :=
  sep.intercalate elems

/-- What a call of a `pipelineVarsFetchOp` returns: the variables and the error
(the `*gitlab.Response` is discarded by the caller). -/
structure FetchResult where
  vars : List PipelineVariable
  err : Option String

/-- The type `pipelineVarsFetchOp`, applied to the project id and the pipeline id. -/
abbrev pipelineVarsFetchOp := Int → Int → FetchResult

/-- Observable steps of one call of `emitPipelineVariablesMetric`. -/
inductive Event where
  | rateLimit
  | fetch (pID : Int) (pipelineID : Int)
  | inc (labelValues : List String)
  deriving DecidableEq, Repr

/-- Outcome of `emitPipelineVariablesMetric`: the steps taken, the gauge vector
afterwards and the returned error. -/
structure EmitResult where
  events : List Event
  gauge : GaugeVec
  err : Option String

/-- The loop collecting the keys that match the filter, in the order of the fetched list `variables`. -/
def collectVarValues (filterRegexp : String → Bool) (vars : List PipelineVariable) :
    List String :=
  vars.foldl (fun varValues v =>
    if filterRegexp v.Key then varValues ++ [v.Key] else varValues) []

/-- The function `emitPipelineVariablesMetric`. The compiled `filterRegexp` is modelled by
its `MatchString` predicate, the client `c` by the `rateLimit` step it contributes. -/
def emitPipelineVariablesMetric (gauge : GaugeVec) (details : projectDetails)
    (pipelineID : Int) (fetch : pipelineVarsFetchOp) (filterRegexp : String → Bool) :
    EmitResult :=
  let events := [Event.rateLimit, Event.fetch details.pID pipelineID]
  let r := fetch details.pID pipelineID
  match r.err with
  | some e =>
    ⟨events, gauge,
      some ("could not fetch pipeline variables for pipeline " ++ toString pipelineID
        ++ ": " ++ e)⟩
  | none =>
    if r.vars.length > 0 then
      let varValues := collectVarValues filterRegexp r.vars
      if varValues.length > 0 then
        let lvs := augmentLabelValues details [stringsJoin varValues ","]
        ⟨events ++ [Event.inc lvs], (gauge.WithLabelValues lvs).Inc lvs, none⟩
      else
        ⟨events, gauge, none⟩
    else
      ⟨events, gauge, none⟩

/-- The `MatchString` predicate of the regular expression `^CI_.*`: the key starts with `CI_`. -/
def matchCI (key : String) : Bool :=
  "CI_".toList.isPrefixOf key.toList

/-! ## Metric families and the registry -/

/-- Declaration of a gauge family by `prometheus.NewGaugeVec`: the name and help of its
`GaugeOpts` and its label names. -/
structure GaugeVecDecl where
  Name : String
  Help : String
  labelNames : List String
  deriving DecidableEq, Repr

def coverage : GaugeVecDecl :=
  ⟨"gitlab_ci_pipeline_coverage", "Coverage of the most recent pipeline",
    ["project", "topics", "ref"]⟩

def lastRunDuration : GaugeVecDecl :=
  ⟨"gitlab_ci_pipeline_last_run_duration_seconds", "Duration of last pipeline run",
    ["project", "topics", "ref"]⟩

def lastRunJobDuration : GaugeVecDecl :=
  ⟨"gitlab_ci_pipeline_last_job_run_duration_seconds", "Duration of last job run",
    ["project", "topics", "ref", "stage", "job_name"]⟩

def lastRunJobStatus : GaugeVecDecl :=
  ⟨"gitlab_ci_pipeline_last_job_run_status", "Status of the most recent job",
    ["project", "topics", "ref", "stage", "job_name", "status"]⟩

def lastRunJobArtifactSize : GaugeVecDecl :=
  ⟨"gitlab_ci_pipeline_last_job_run_artifact_size", "Filesize of the most recent job artifacts",
    ["project", "topics", "ref", "stage", "job_name"]⟩

def timeSinceLastJobRun : GaugeVecDecl :=
  ⟨"gitlab_ci_pipeline_time_since_last_job_run_seconds",
    "Elapsed time since most recent GitLab CI job run.",
    ["project", "topics", "ref", "stage", "job_name"]⟩

def jobRunCount : GaugeVecDecl :=
  ⟨"gitlab_ci_pipeline_job_run_count", "GitLab CI pipeline job run count",
    ["project", "topics", "ref", "stage", "job_name"]⟩

def lastRunID : GaugeVecDecl :=
  ⟨"gitlab_ci_pipeline_last_run_id", "ID of the most recent pipeline",
    ["project", "topics", "ref"]⟩

def lastRunStatus : GaugeVecDecl :=
  ⟨"gitlab_ci_pipeline_last_run_status", "Status of the most recent pipeline",
    ["project", "topics", "ref", "status"]⟩

def runCount : GaugeVecDecl :=
  ⟨"gitlab_ci_pipeline_run_count", "GitLab CI pipeline run count",
    ["project", "topics", "ref"]⟩

def timeSinceLastRun : GaugeVecDecl :=
  ⟨"gitlab_ci_pipeline_time_since_last_run_seconds",
    "Elapsed time since most recent GitLab CI pipeline run.",
    ["project", "topics", "ref"]⟩

def pipelineVariables : GaugeVecDecl :=
  ⟨"gitlab_ci_pipeline_run_count_with_variable", "Count of pipelines with variables",
    ["project", "topics", "ref", "pipeline_variables"]⟩

/-- The list `defaultMetrics`, in the order of the source. -/
def defaultMetrics : List GaugeVecDecl :=
  [coverage, lastRunDuration, lastRunJobDuration, lastRunJobStatus, lastRunJobArtifactSize,
    timeSinceLastJobRun, jobRunCount, lastRunID, lastRunStatus, runCount, timeSinceLastRun,
    pipelineVariables]

/-- Whether the characters `sub` occur consecutively in `s`. -/
def containsChars (sub s : List Char) : Bool :=
  s.tails.any (fun t => sub.isPrefixOf t)

/-- A family describes jobs when its metric name has the part `_job_`. -/
def isJobLevel (m : GaugeVecDecl) : Bool :=
  containsChars "_job_".toList m.Name.toList

/-- A family is a status family when its metric name ends in `_status`. -/
def isStatusFamily (m : GaugeVecDecl) : Bool :=
  "_status".toList.isSuffixOf m.Name.toList

/-- Content of a `prometheus.Registry`: the collectors registered so far, oldest first. -/
structure Registry where
  collectors : List GaugeVecDecl
  deriving DecidableEq

/-- The function `NewRegistry`: a registry without collectors. -/
def NewRegistry : Registry := ⟨[]⟩

namespace Registry

/-- Whether a family of the given name is registered. -/
def hasName (r : Registry) (name : String) : Bool :=
  r.collectors.any (fun c => decide (c.Name = name))

/-- The method `prometheus.Registry.Register` on a gauge family without constant labels: the
family is refused (`none`, an error in Go) when a family of the same fully-qualified name
is registered already, and is added otherwise. The library also refuses ill-formed
descriptors; the names, helps and label names declared in `metrics.go` are all well-formed. -/
def Register (r : Registry) (c : GaugeVecDecl) : Option Registry :=
  if r.hasName c.Name then none else some ⟨r.collectors ++ [c]⟩

end Registry

/-- Outcome of `RegisterDefaultMetrics`: the registry afterwards and the returned error. The
error `could not add provided metric '<m>' to the Prometheus registry: <cause>` is
represented by the family `m` it reports. -/
structure RegisterResult where
  registry : Registry
  err : Option GaugeVecDecl

/-- The loop of `RegisterDefaultMetrics` over the remaining families: the first refused
family ends it, the families registered before stay in the registry. -/
def registerLoop (r : Registry) : List GaugeVecDecl → RegisterResult
  | [] => ⟨r, none⟩
  | m :: ms =>
    match r.Register m with
    | none => ⟨r, some m⟩
    | some r' => registerLoop r' ms

/-- The method `RegisterDefaultMetrics`. -/
def Registry.RegisterDefaultMetrics (r : Registry) : RegisterResult :=
  registerLoop r defaultMetrics

/-- Successive calls of `emitPipelineVariablesMetric` for the same entity, one per pair of
pipeline id and fetch, each on the gauge vector left by the previous call. -/
def emitPipelineVariablesRuns (gauge : GaugeVec) (details : projectDetails)
    (filterRegexp : String → Bool) (calls : List (Int × pipelineVarsFetchOp)) : GaugeVec :=
  calls.foldl (fun g c =>
    (emitPipelineVariablesMetric g details c.1 c.2 filterRegexp).gauge) gauge

/-- The variables reduced to what the filter keeps: the matching keys, in order, with
blank values. -/
def redactVariables (filterRegexp : String → Bool) (vars : List PipelineVariable) :
    List PipelineVariable :=
  (vars.filter (fun v => filterRegexp v.Key)).map (fun v => ⟨v.Key, "", ""⟩)

/-- A key is free of the separator when it has no comma. -/
abbrev commaFree (key : String) : Prop := ',' ∉ key.toList

/-- Characters that `strings.Join` with a comma puts after the first element: each further
element preceded by a comma. -/
def tailChars : List String → List Char
  | [] => []
  | a :: rest => ',' :: (a.toList ++ tailChars rest)

/-! ## Sample inputs -/

/-- An entity with project id 7 and label values proj / topic / main. -/
def sampleDetails : projectDetails := ⟨7, ["proj", "topic", "main"]⟩

/-- Variables with the keys CI_ENV, SECRET, CI_TAG, in that order. -/
def ciVariables : List PipelineVariable :=
  [⟨"CI_ENV", "production", "env_var"⟩, ⟨"SECRET", "hunter2", "env_var"⟩,
    ⟨"CI_TAG", "v1", "env_var"⟩]

/-- Variables with the keys B, A, in that order. -/
def baVariables : List PipelineVariable := [⟨"B", "2", "env_var"⟩, ⟨"A", "1", "env_var"⟩]

/-- Variables with the keys A, B, in that order. -/
def abVariables : List PipelineVariable := [⟨"A", "1", "env_var"⟩, ⟨"B", "2", "env_var"⟩]

/-- Variables with the keys CI_ENV, CI_TAG only, with other values than in `ciVariables`. -/
def ciOnlyVariables : List PipelineVariable :=
  [⟨"CI_ENV", "staging", "env_var"⟩, ⟨"CI_TAG", "v2", "file"⟩]

/-- A filter that accepts every key, as the regular expression `.*` does. -/
def matchAll (_key : String) : Bool := true

/-- A fetch that succeeds with the given variables. -/
def fetchReturning (vars : List PipelineVariable) : pipelineVarsFetchOp :=
  fun _ _ => ⟨vars, none⟩

/-- A fetch that fails with the given message. -/
def fetchFailing (e : String) : pipelineVarsFetchOp :=
  fun _ _ => ⟨[], some e⟩

/-! ## Lemmas on the status loop -/

theorem emitStatusStep_metrics (labelValues : List String) (status : String)
    (sparseMetrics : Bool) (metric : GaugeVec) (s : String) (k : List String) :
    (emitStatusStep labelValues status sparseMetrics metric s).metrics k =
      if k = labelValues ++ [s] then
        (if s = status then some 1 else if sparseMetrics = true then none else some 0)
      else metric.metrics k := by
  unfold emitStatusStep
  by_cases hk : k = labelValues ++ [s]
  · subst hk
    by_cases hs : s = status
    · subst hs
      cases h : metric.metrics (labelValues ++ [s]) <;>
        simp [h, GaugeVec.Set, GaugeVec.WithLabelValues]
    · cases sparseMetrics
      · cases h : metric.metrics (labelValues ++ [s]) <;>
          simp [hs, h, GaugeVec.Set, GaugeVec.WithLabelValues]
      · simp [hs, GaugeVec.DeleteLabelValues]
  · by_cases hs : s = status
    · subst hs
      simp [hk, GaugeVec.Set, GaugeVec.WithLabelValues]
    · cases sparseMetrics <;>
        simp [hs, hk, GaugeVec.Set, GaugeVec.WithLabelValues, GaugeVec.DeleteLabelValues]

theorem emitStatusMetric_cons (metric : GaugeVec) (labelValues : List String) (x : String)
    (xs : List String) (status : String) (sparseMetrics : Bool) :
    emitStatusMetric metric labelValues (x :: xs) status sparseMetrics =
      emitStatusMetric (emitStatusStep labelValues status sparseMetrics metric x)
        labelValues xs status sparseMetrics := rfl

/-- A label tuple that is not `labelValues ++ [m]` for a member `m` is left as it was. -/
theorem emitStatusMetric_other (labelValues : List String) (status : String)
    (sparseMetrics : Bool) (k : List String) (statuses : List String) :
    ∀ metric : GaugeVec, (∀ m ∈ statuses, k ≠ labelValues ++ [m]) →
      (emitStatusMetric metric labelValues statuses status sparseMetrics).metrics k =
        metric.metrics k := by
  induction statuses with
  | nil => intro metric _; rfl
  | cons x xs ih =>
    intro metric h
    rw [emitStatusMetric_cons, ih _ (fun m hm => h m (List.mem_cons_of_mem x hm)),
      emitStatusStep_metrics, if_neg (h x (List.mem_cons_self x xs))]

/-- The series of a member `m` ends with a value that depends on `m`, the observed status
and the mode only. -/
theorem emitStatusMetric_member (labelValues : List String) (status : String)
    (sparseMetrics : Bool) (m : String) (statuses : List String) :
    ∀ metric : GaugeVec, m ∈ statuses →
      (emitStatusMetric metric labelValues statuses status sparseMetrics).metrics
          (labelValues ++ [m]) =
        if m = status then some 1 else if sparseMetrics = true then none else some 0 := by
  induction statuses with
  | nil => intro metric h; simp at h
  | cons x xs ih =>
    intro metric h
    rw [emitStatusMetric_cons]
    by_cases hm : m ∈ xs
    · exact ih _ hm
    · have hx : m = x := by
        rcases List.mem_cons.mp h with h | h
        · exact h
        · exact absurd h hm
      subst hx
      rw [emitStatusMetric_other, emitStatusStep_metrics, if_pos rfl]
      intro m' hm' heq
      have : m = m' := by simpa using heq
      exact hm (this ▸ hm')

/-! ## Status emission: one-hot encoding -/

/-- C1 (dense one-hot): when the observed status is a member of the enumeration, after
`emitStatusMetric` in dense mode the series of the observed status has value 1, the series
of every other member is present with value 0, and so a member's series has value 1
exactly when the member is the observed status. -/
theorem emitStatusMetric_dense_one_hot (metric : GaugeVec) (labelValues statuses : List String)
    (status : String) (hs : status ∈ statuses) :
    (emitStatusMetric metric labelValues statuses status false).metrics
        (labelValues ++ [status]) = some 1 ∧
    (∀ m ∈ statuses, m ≠ status →
      (emitStatusMetric metric labelValues statuses status false).metrics
        (labelValues ++ [m]) = some 0) ∧
    (∀ m ∈ statuses,
      ((emitStatusMetric metric labelValues statuses status false).metrics
        (labelValues ++ [m]) = some 1 ↔ m = status)) := by
  refine ⟨?_, ?_, ?_⟩
  · rw [emitStatusMetric_member _ _ _ _ _ _ hs]; simp
  · intro m hm hne
    rw [emitStatusMetric_member _ _ _ _ _ _ hm]; simp [hne]
  · intro m hm
    rw [emitStatusMetric_member _ _ _ _ _ _ hm]
    by_cases h : m = status <;> simp [h]

/-- Scenario of C1: enumeration success / failed / running, observed `failed`, dense mode,
starting from a vector in which `success` is on. -/
theorem emitStatusMetric_dense_one_hot_witness :
    "failed" ∈ ["success", "failed", "running"] ∧
    ((emitStatusMetric
        ((GaugeVec.empty.WithLabelValues
          ["proj", "topic", "main", "build", "unit-test", "success"]).Set
          ["proj", "topic", "main", "build", "unit-test", "success"] 1)
        ["proj", "topic", "main", "build", "unit-test"]
        ["success", "failed", "running"] "failed" false).metrics
        (["proj", "topic", "main", "build", "unit-test"] ++ ["failed"]) = some 1 ∧
    (∀ m ∈ ["success", "failed", "running"], m ≠ "failed" →
      (emitStatusMetric
        ((GaugeVec.empty.WithLabelValues
          ["proj", "topic", "main", "build", "unit-test", "success"]).Set
          ["proj", "topic", "main", "build", "unit-test", "success"] 1)
        ["proj", "topic", "main", "build", "unit-test"]
        ["success", "failed", "running"] "failed" false).metrics
        (["proj", "topic", "main", "build", "unit-test"] ++ [m]) = some 0) ∧
    (∀ m ∈ ["success", "failed", "running"],
      ((emitStatusMetric
        ((GaugeVec.empty.WithLabelValues
          ["proj", "topic", "main", "build", "unit-test", "success"]).Set
          ["proj", "topic", "main", "build", "unit-test", "success"] 1)
        ["proj", "topic", "main", "build", "unit-test"]
        ["success", "failed", "running"] "failed" false).metrics
        (["proj", "topic", "main", "build", "unit-test"] ++ [m]) = some 1 ↔ m = "failed"))) :=
  ⟨by decide, emitStatusMetric_dense_one_hot _ _ _ _ (by decide)⟩

/-- C2 (sparse one-hot): when the observed status is a member of the enumeration, after
`emitStatusMetric` in sparse mode the series of the observed status is present with value 1
and the series of every other member is absent, whatever the vector held before. -/
theorem emitStatusMetric_sparse_one_hot (metric : GaugeVec) (labelValues statuses : List String)
    (status : String) (hs : status ∈ statuses) :
    (emitStatusMetric metric labelValues statuses status true).metrics
        (labelValues ++ [status]) = some 1 ∧
    (∀ m ∈ statuses, m ≠ status →
      (emitStatusMetric metric labelValues statuses status true).metrics
        (labelValues ++ [m]) = none) := by
  refine ⟨?_, ?_⟩
  · rw [emitStatusMetric_member _ _ _ _ _ _ hs]; simp
  · intro m hm hne
    rw [emitStatusMetric_member _ _ _ _ _ _ hm]; simp [hne]

/-- Scenario of C2: the same enumeration in sparse mode, starting from a vector in which the
series of `success` exists with value 1. -/
theorem emitStatusMetric_sparse_one_hot_witness :
    "failed" ∈ ["success", "failed", "running"] ∧
    ((emitStatusMetric
        ((GaugeVec.empty.WithLabelValues
          ["proj", "topic", "main", "build", "unit-test", "success"]).Set
          ["proj", "topic", "main", "build", "unit-test", "success"] 1)
        ["proj", "topic", "main", "build", "unit-test"]
        ["success", "failed", "running"] "failed" true).metrics
        (["proj", "topic", "main", "build", "unit-test"] ++ ["failed"]) = some 1 ∧
    (∀ m ∈ ["success", "failed", "running"], m ≠ "failed" →
      (emitStatusMetric
        ((GaugeVec.empty.WithLabelValues
          ["proj", "topic", "main", "build", "unit-test", "success"]).Set
          ["proj", "topic", "main", "build", "unit-test", "success"] 1)
        ["proj", "topic", "main", "build", "unit-test"]
        ["success", "failed", "running"] "failed" true).metrics
        (["proj", "topic", "main", "build", "unit-test"] ++ [m]) = none)) :=
  ⟨by decide, emitStatusMetric_sparse_one_hot _ _ _ _ (by decide)⟩

/-- C3 (unrecognised status): when the observed status is not a member of the enumeration,
`emitStatusMetric` (a total function, it has no error result) leaves every member's series
present with value 0 in dense mode and absent in sparse mode; in either mode no member's
series has value 1, whatever the vector held before. -/
theorem emitStatusMetric_unrecognised (metric : GaugeVec) (labelValues statuses : List String)
    (status : String) (hs : status ∉ statuses) :
    (∀ m ∈ statuses,
      (emitStatusMetric metric labelValues statuses status false).metrics
        (labelValues ++ [m]) = some 0) ∧
    (∀ m ∈ statuses,
      (emitStatusMetric metric labelValues statuses status true).metrics
        (labelValues ++ [m]) = none) ∧
    (∀ sparseMetrics : Bool, ∀ m ∈ statuses,
      (emitStatusMetric metric labelValues statuses status sparseMetrics).metrics
        (labelValues ++ [m]) ≠ some 1) := by
  have hne : ∀ m ∈ statuses, m ≠ status := fun m hm h => hs (h ▸ hm)
  refine ⟨?_, ?_, ?_⟩
  · intro m hm
    rw [emitStatusMetric_member _ _ _ _ _ _ hm]; simp [hne m hm]
  · intro m hm
    rw [emitStatusMetric_member _ _ _ _ _ _ hm]; simp [hne m hm]
  · intro sparseMetrics m hm
    rw [emitStatusMetric_member _ _ _ _ _ _ hm]
    cases sparseMetrics <;> simp [hne m hm]

/-- Scenario of C3: the status `unknown` is observed while the series of `success` holds 1. -/
theorem emitStatusMetric_unrecognised_witness :
    "unknown" ∉ ["success", "failed", "running"] ∧
    ((∀ m ∈ ["success", "failed", "running"],
      (emitStatusMetric
        ((GaugeVec.empty.WithLabelValues ["proj", "topic", "main", "success"]).Set
          ["proj", "topic", "main", "success"] 1)
        ["proj", "topic", "main"] ["success", "failed", "running"] "unknown" false).metrics
        (["proj", "topic", "main"] ++ [m]) = some 0) ∧
    (∀ m ∈ ["success", "failed", "running"],
      (emitStatusMetric
        ((GaugeVec.empty.WithLabelValues ["proj", "topic", "main", "success"]).Set
          ["proj", "topic", "main", "success"] 1)
        ["proj", "topic", "main"] ["success", "failed", "running"] "unknown" true).metrics
        (["proj", "topic", "main"] ++ [m]) = none) ∧
    (∀ sparseMetrics : Bool, ∀ m ∈ ["success", "failed", "running"],
      (emitStatusMetric
        ((GaugeVec.empty.WithLabelValues ["proj", "topic", "main", "success"]).Set
          ["proj", "topic", "main", "success"] 1)
        ["proj", "topic", "main"] ["success", "failed", "running"] "unknown"
        sparseMetrics).metrics
        (["proj", "topic", "main"] ++ [m]) ≠ some 1)) :=
  ⟨by decide, emitStatusMetric_unrecognised _ _ _ _ (by decide)⟩

/-- C4, as stated, fails: with the enumeration success / failed / running and the observed
status `canceled`, which is not a member, no member's series holds value 1 after the call,
so it is not the case that exactly one does. -/
theorem emitStatusMetric_exactly_one_counterexample :
    ¬ ∃! m, m ∈ ["success", "failed", "running"] ∧
      (emitStatusMetric GaugeVec.empty ["proj", "topic", "main"]
        ["success", "failed", "running"] "canceled" false).metrics
        (["proj", "topic", "main"] ++ [m]) = some 1 := by
  rintro ⟨m, ⟨hm, h⟩, _⟩
  rw [emitStatusMetric_member _ _ _ _ _ _ hm] at h
  have hne : m ≠ "canceled" := by
    intro hc
    subst hc
    revert hm
    decide
  simp [hne] at h

/-- C4 (amended): for an observed status that is a member of the enumeration, in either
mode and from any prior state, after `emitStatusMetric` exactly one member of the
enumeration has its series at value 1. -/
theorem emitStatusMetric_exactly_one (metric : GaugeVec) (labelValues statuses : List String)
    (status : String) (sparseMetrics : Bool) (hs : status ∈ statuses) :
    ∃! m, m ∈ statuses ∧
      (emitStatusMetric metric labelValues statuses status sparseMetrics).metrics
        (labelValues ++ [m]) = some 1 := by
  refine ⟨status, ⟨hs, ?_⟩, ?_⟩
  · rw [emitStatusMetric_member _ _ _ _ _ _ hs]; simp
  · rintro m ⟨hm, h⟩
    rw [emitStatusMetric_member _ _ _ _ _ _ hm] at h
    by_contra hne
    cases sparseMetrics <;> simp [hne] at h

/-- Scenario of the amended C4: two members are on beforehand, `running` is observed in
sparse mode. -/
theorem emitStatusMetric_exactly_one_witness :
    "running" ∈ ["success", "failed", "running"] ∧
    ∃! m, m ∈ ["success", "failed", "running"] ∧
      (emitStatusMetric
        ((((GaugeVec.empty.WithLabelValues ["proj", "topic", "main", "success"]).Set
          ["proj", "topic", "main", "success"] 1).WithLabelValues
          ["proj", "topic", "main", "failed"]).Set ["proj", "topic", "main", "failed"] 1)
        ["proj", "topic", "main"] ["success", "failed", "running"] "running" true).metrics
        (["proj", "topic", "main"] ++ [m]) = some 1 :=
  ⟨by decide, emitStatusMetric_exactly_one _ _ _ _ _ (by decide)⟩

/-! ## Status emission: algebraic properties -/

/-- C5 (idempotence): applying `emitStatusMetric` twice in a row with the same label values,
enumeration, observed status and mode gives the same vector as applying it once. -/
theorem emitStatusMetric_idempotent (metric : GaugeVec) (labelValues statuses : List String)
    (status : String) (sparseMetrics : Bool) :
    emitStatusMetric (emitStatusMetric metric labelValues statuses status sparseMetrics)
        labelValues statuses status sparseMetrics =
      emitStatusMetric metric labelValues statuses status sparseMetrics := by
  apply GaugeVec.ext
  funext k
  by_cases h : ∃ m ∈ statuses, k = labelValues ++ [m]
  · obtain ⟨m, hm, rfl⟩ := h
    rw [emitStatusMetric_member _ _ _ _ _ _ hm, emitStatusMetric_member _ _ _ _ _ _ hm]
  · have h' : ∀ m ∈ statuses, k ≠ labelValues ++ [m] := fun m hm hk => h ⟨m, hm, hk⟩
    rw [emitStatusMetric_other _ _ _ _ _ _ h']

/-- C6 (prior-state independence): for a member `m` of the enumeration, the series of `m`
after `emitStatusMetric` is the same from any two prior vectors, being determined by
`m`, the observed status and the mode; so emitting a status after another status one
leaves the member's series as emitting it alone does. -/
theorem emitStatusMetric_prior_state_independent (r1 r2 : GaugeVec)
    (labelValues statuses : List String) (status : String) (sparseMetrics : Bool)
    (m : String) (hm : m ∈ statuses) :
    (emitStatusMetric r1 labelValues statuses status sparseMetrics).metrics
        (labelValues ++ [m]) =
      (emitStatusMetric r2 labelValues statuses status sparseMetrics).metrics
        (labelValues ++ [m]) ∧
    (emitStatusMetric r1 labelValues statuses status sparseMetrics).metrics
        (labelValues ++ [m]) =
      (if m = status then some 1 else if sparseMetrics = true then none else some 0) ∧
    (∀ s1 : String,
      (emitStatusMetric (emitStatusMetric r1 labelValues statuses s1 sparseMetrics)
        labelValues statuses status sparseMetrics).metrics (labelValues ++ [m]) =
      (emitStatusMetric r1 labelValues statuses status sparseMetrics).metrics
        (labelValues ++ [m])) := by
  refine ⟨?_, ?_, ?_⟩
  · rw [emitStatusMetric_member _ _ _ _ _ _ hm, emitStatusMetric_member _ _ _ _ _ _ hm]
  · rw [emitStatusMetric_member _ _ _ _ _ _ hm]
  · intro s1
    rw [emitStatusMetric_member _ _ _ _ _ _ hm, emitStatusMetric_member _ _ _ _ _ _ hm]

/-- Scenario of C6: the empty vector against one where `success` is on, `failed` observed in
dense mode, read at the member `success`. -/
theorem emitStatusMetric_prior_state_independent_witness :
    "success" ∈ ["success", "failed"] ∧
    ((emitStatusMetric GaugeVec.empty ["proj", "topic", "main"] ["success", "failed"]
        "failed" false).metrics (["proj", "topic", "main"] ++ ["success"]) =
      (emitStatusMetric
        ((GaugeVec.empty.WithLabelValues ["proj", "topic", "main", "success"]).Set
          ["proj", "topic", "main", "success"] 1)
        ["proj", "topic", "main"] ["success", "failed"]
        "failed" false).metrics (["proj", "topic", "main"] ++ ["success"]) ∧
    (emitStatusMetric GaugeVec.empty ["proj", "topic", "main"] ["success", "failed"]
        "failed" false).metrics (["proj", "topic", "main"] ++ ["success"]) =
      (if "success" = "failed" then some 1 else if false = true then none else some 0) ∧
    (∀ s1 : String,
      (emitStatusMetric
        (emitStatusMetric GaugeVec.empty ["proj", "topic", "main"] ["success", "failed"]
          s1 false)
        ["proj", "topic", "main"] ["success", "failed"] "failed" false).metrics
        (["proj", "topic", "main"] ++ ["success"]) =
      (emitStatusMetric GaugeVec.empty ["proj", "topic", "main"] ["success", "failed"]
        "failed" false).metrics (["proj", "topic", "main"] ++ ["success"]))) :=
  ⟨by decide,
    emitStatusMetric_prior_state_independent GaugeVec.empty
      ((GaugeVec.empty.WithLabelValues ["proj", "topic", "main", "success"]).Set
        ["proj", "topic", "main", "success"] 1)
      ["proj", "topic", "main"] ["success", "failed"] "failed" false "success" (by decide)⟩

/-! ## Lemmas on the pipeline-variable emission -/

/-- Integers of magnitude at most 2^53 are `float64` values. -/
theorem roundFloat64_of_natAbs_le (x : Int) (h : x.natAbs ≤ 2 ^ 53) : roundFloat64 x = x := by
  rcases Nat.lt_or_eq_of_le h with hlt | heq
  · have he : float64ExcessBits x.natAbs x.natAbs = 0 := by
      cases hx : x.natAbs with
      | zero => rfl
      | succ n =>
        rw [hx] at hlt
        unfold float64ExcessBits
        rw [if_pos hlt]
    unfold roundFloat64
    simp only [he, pow_zero, Nat.div_one, Nat.mod_one, Nat.mul_one, Nat.mul_zero]
    have hq : (if 0 > 1 ∨ 0 = 1 ∧ x.natAbs % 2 = 1 then x.natAbs + 1 else x.natAbs) =
        x.natAbs := by
      rw [if_neg]
      omega
    rw [hq]
    by_cases hneg : x < 0
    · rw [if_pos hneg]
      omega
    · rw [if_neg hneg]
      omega
  · rcases Int.natAbs_eq x with hx | hx
    · rw [hx, heq]
      decide
    · rw [hx, heq]
      decide

/-- Adding 1 to an integer of magnitude below 2^53 is exact in `float64`. -/
theorem roundFloat64_succ_of_natAbs_lt (v : Int) (h : v.natAbs < 2 ^ 53) :
    roundFloat64 (v + 1) = v + 1 := by
  apply roundFloat64_of_natAbs_le
  omega

/-- At 2^53 the `float64` addition of 1 changes nothing. -/
theorem roundFloat64_two_pow_53_succ :
    roundFloat64 ((2 : Int) ^ 53 + 1) = (2 : Int) ^ 53 := by
  decide

theorem collectVarValues_eq (filterRegexp : String → Bool) (vars : List PipelineVariable) :
    collectVarValues filterRegexp vars =
      (vars.filter (fun v => filterRegexp v.Key)).map PipelineVariable.Key := by
  have h : ∀ (vs : List PipelineVariable) (acc : List String),
      vs.foldl (fun varValues v =>
        if filterRegexp v.Key then varValues ++ [v.Key] else varValues) acc =
      acc ++ (vs.filter (fun v => filterRegexp v.Key)).map PipelineVariable.Key := by
    intro vs
    induction vs with
    | nil => intro acc; simp
    | cons v vs ih =>
      intro acc
      rw [List.foldl_cons, ih]
      by_cases hv : filterRegexp v.Key = true
      · simp [hv, List.filter_cons]
      · simp [hv, List.filter_cons]
  simpa [collectVarValues] using h vars []

theorem GaugeVec.inc_withLabelValues_metrics (g : GaugeVec) (lvs k : List String) :
    ((g.WithLabelValues lvs).Inc lvs).metrics k =
      if k = lvs then some (roundFloat64 (g.value lvs + 1)) else g.metrics k := by
  by_cases hk : k = lvs
  · subst hk
    cases h : g.metrics k <;> simp [h, GaugeVec.Inc, GaugeVec.WithLabelValues, GaugeVec.value]
  · simp [hk, GaugeVec.Inc, GaugeVec.WithLabelValues]

/-- Result of a call whose fetch succeeds with at least one matching key. -/
theorem emitPipelineVariablesMetric_of_match (gauge : GaugeVec) (details : projectDetails)
    (pipelineID : Int) (fetch : pipelineVarsFetchOp) (filterRegexp : String → Bool)
    (vars : List PipelineVariable) (hfetch : fetch details.pID pipelineID = ⟨vars, none⟩)
    (hmatch : (vars.filter (fun v => filterRegexp v.Key)).map PipelineVariable.Key ≠ []) :
    emitPipelineVariablesMetric gauge details pipelineID fetch filterRegexp =
      ⟨[Event.rateLimit, Event.fetch details.pID pipelineID,
          Event.inc (details.entityLabels ++
            [stringsJoin ((vars.filter (fun v => filterRegexp v.Key)).map
              PipelineVariable.Key) ","])],
        (gauge.WithLabelValues (details.entityLabels ++
            [stringsJoin ((vars.filter (fun v => filterRegexp v.Key)).map
              PipelineVariable.Key) ","])).Inc
          (details.entityLabels ++
            [stringsJoin ((vars.filter (fun v => filterRegexp v.Key)).map
              PipelineVariable.Key) ","]),
        none⟩ := by
  have hvars : vars ≠ [] := by
    intro h
    subst h
    simp at hmatch
  have h1 : 0 < vars.length := List.length_pos.mpr hvars
  have h2 : 0 < ((vars.filter (fun v => filterRegexp v.Key)).map
      PipelineVariable.Key).length := List.length_pos.mpr hmatch
  unfold emitPipelineVariablesMetric
  simp only [hfetch, collectVarValues_eq, gt_iff_lt, h1, h2, if_true, augmentLabelValues]
  rfl

/-- Result of a call whose fetch succeeds with no matching key. -/
theorem emitPipelineVariablesMetric_of_no_match (gauge : GaugeVec) (details : projectDetails)
    (pipelineID : Int) (fetch : pipelineVarsFetchOp) (filterRegexp : String → Bool)
    (vars : List PipelineVariable) (hfetch : fetch details.pID pipelineID = ⟨vars, none⟩)
    (hnone : (vars.filter (fun v => filterRegexp v.Key)).map PipelineVariable.Key = []) :
    emitPipelineVariablesMetric gauge details pipelineID fetch filterRegexp =
      ⟨[Event.rateLimit, Event.fetch details.pID pipelineID], gauge, none⟩ := by
  unfold emitPipelineVariablesMetric
  simp only [hfetch, collectVarValues_eq, hnone]
  by_cases h1 : vars.length > 0 <;> simp [h1]

/-- Result of a call whose fetch fails. -/
theorem emitPipelineVariablesMetric_of_error (gauge : GaugeVec) (details : projectDetails)
    (pipelineID : Int) (fetch : pipelineVarsFetchOp) (filterRegexp : String → Bool)
    (e : String) (hfetch : (fetch details.pID pipelineID).err = some e) :
    emitPipelineVariablesMetric gauge details pipelineID fetch filterRegexp =
      ⟨[Event.rateLimit, Event.fetch details.pID pipelineID], gauge,
        some ("could not fetch pipeline variables for pipeline " ++ toString pipelineID
          ++ ": " ++ e)⟩ := by
  unfold emitPipelineVariablesMetric
  simp only [hfetch]

/-! ## Pipeline-variable emission -/

/-- C7, as stated, fails: when the series addressed already holds 2^53, a successful call
with matching keys returns no error and leaves it at 2^53, because the `float64` addition
of 1 is absorbed; the series has not increased by 1. -/
theorem emitPipelineVariablesMetric_increments_counterexample :
    fetchReturning ciVariables sampleDetails.pID 42 = ⟨ciVariables, none⟩ ∧
    (∃ v ∈ ciVariables, matchCI v.Key = true) ∧
    ((GaugeVec.empty.WithLabelValues ["proj", "topic", "main", "CI_ENV,CI_TAG"]).Set
      ["proj", "topic", "main", "CI_ENV,CI_TAG"] 9007199254740992).metrics
      ["proj", "topic", "main", "CI_ENV,CI_TAG"] = some 9007199254740992 ∧
    (emitPipelineVariablesMetric
      ((GaugeVec.empty.WithLabelValues ["proj", "topic", "main", "CI_ENV,CI_TAG"]).Set
        ["proj", "topic", "main", "CI_ENV,CI_TAG"] 9007199254740992)
      sampleDetails 42 (fetchReturning ciVariables) matchCI).err = none ∧
    (emitPipelineVariablesMetric
      ((GaugeVec.empty.WithLabelValues ["proj", "topic", "main", "CI_ENV,CI_TAG"]).Set
        ["proj", "topic", "main", "CI_ENV,CI_TAG"] 9007199254740992)
      sampleDetails 42 (fetchReturning ciVariables) matchCI).gauge.metrics
      ["proj", "topic", "main", "CI_ENV,CI_TAG"] = some 9007199254740992 := by
  refine ⟨rfl, by decide, by decide, by decide, by decide⟩

/-- C7 (amended): when the fetch succeeds and at least one key matches the filter,
`emitPipelineVariablesMetric` returns no error and applies `Inc` to the series addressed by
the entity labels followed by the matching keys, taken in fetch order and joined with a
comma; when the value of that series before the call (0 if absent) has magnitude below 2^53
the series is raised by exactly 1; every other series is left as it was. -/
theorem emitPipelineVariablesMetric_increments (gauge : GaugeVec) (details : projectDetails)
    (pipelineID : Int) (fetch : pipelineVarsFetchOp) (filterRegexp : String → Bool)
    (vars : List PipelineVariable) (hfetch : fetch details.pID pipelineID = ⟨vars, none⟩)
    (hmatch : ∃ v ∈ vars, filterRegexp v.Key = true) :
    (emitPipelineVariablesMetric gauge details pipelineID fetch filterRegexp).err = none ∧
    (emitPipelineVariablesMetric gauge details pipelineID fetch filterRegexp).gauge =
      (gauge.WithLabelValues (details.entityLabels ++
          [stringsJoin ((vars.filter (fun v => filterRegexp v.Key)).map
            PipelineVariable.Key) ","])).Inc
        (details.entityLabels ++
          [stringsJoin ((vars.filter (fun v => filterRegexp v.Key)).map
            PipelineVariable.Key) ","]) ∧
    ((gauge.value (details.entityLabels ++
          [stringsJoin ((vars.filter (fun v => filterRegexp v.Key)).map
            PipelineVariable.Key) ","])).natAbs < 2 ^ 53 →
      (emitPipelineVariablesMetric gauge details pipelineID fetch filterRegexp).gauge.metrics
          (details.entityLabels ++
            [stringsJoin ((vars.filter (fun v => filterRegexp v.Key)).map
              PipelineVariable.Key) ","]) =
        some (gauge.value (details.entityLabels ++
            [stringsJoin ((vars.filter (fun v => filterRegexp v.Key)).map
              PipelineVariable.Key) ","]) + 1)) ∧
    (∀ k : List String,
      k ≠ details.entityLabels ++
          [stringsJoin ((vars.filter (fun v => filterRegexp v.Key)).map
            PipelineVariable.Key) ","] →
      (emitPipelineVariablesMetric gauge details pipelineID fetch filterRegexp).gauge.metrics k
        = gauge.metrics k) := by
  have hne : (vars.filter (fun v => filterRegexp v.Key)).map PipelineVariable.Key ≠ [] := by
    obtain ⟨v, hv, hf⟩ := hmatch
    intro h
    have hmem : v.Key ∈ (vars.filter (fun v => filterRegexp v.Key)).map
        PipelineVariable.Key :=
      List.mem_map.mpr ⟨v, List.mem_filter.mpr ⟨hv, by simpa using hf⟩, rfl⟩
    rw [h] at hmem
    simp at hmem
  rw [emitPipelineVariablesMetric_of_match gauge details pipelineID fetch filterRegexp vars
    hfetch hne]
  refine ⟨rfl, rfl, ?_, ?_⟩
  · intro hbound
    simp only [GaugeVec.inc_withLabelValues_metrics, if_true]
    rw [roundFloat64_succ_of_natAbs_lt _ hbound]
  · intro k hk
    simp only [GaugeVec.inc_withLabelValues_metrics, if_neg hk]

/-- Scenarios of the amended C7: the filter `^CI_.*` over the keys CI_ENV, SECRET, CI_TAG
addresses the label value `CI_ENV,CI_TAG`; matching keys fetched as B then A address `B,A`;
an absent series goes to 1 and a series at 41 goes to 42. -/
theorem emitPipelineVariablesMetric_increments_witness :
    (fetchReturning ciVariables sampleDetails.pID 42 = ⟨ciVariables, none⟩ ∧
      (∃ v ∈ ciVariables, matchCI v.Key = true) ∧
      stringsJoin ((ciVariables.filter (fun v => matchCI v.Key)).map PipelineVariable.Key) ","
        = "CI_ENV,CI_TAG" ∧
      (emitPipelineVariablesMetric GaugeVec.empty sampleDetails 42 (fetchReturning ciVariables)
        matchCI).err = none ∧
      (emitPipelineVariablesMetric GaugeVec.empty sampleDetails 42 (fetchReturning ciVariables)
        matchCI).gauge.metrics ["proj", "topic", "main", "CI_ENV,CI_TAG"] = some 1) ∧
    (fetchReturning baVariables sampleDetails.pID 43 = ⟨baVariables, none⟩ ∧
      (∃ v ∈ baVariables, matchAll v.Key = true) ∧
      stringsJoin ((baVariables.filter (fun v => matchAll v.Key)).map PipelineVariable.Key) ","
        = "B,A" ∧
      (emitPipelineVariablesMetric GaugeVec.empty sampleDetails 43 (fetchReturning baVariables)
        matchAll).gauge.metrics ["proj", "topic", "main", "B,A"] = some 1) ∧
    (emitPipelineVariablesMetric
      ((GaugeVec.empty.WithLabelValues ["proj", "topic", "main", "CI_ENV,CI_TAG"]).Set
        ["proj", "topic", "main", "CI_ENV,CI_TAG"] 41)
      sampleDetails 42 (fetchReturning ciVariables) matchCI).gauge.metrics
      ["proj", "topic", "main", "CI_ENV,CI_TAG"] = some 42 := by
  have h1 := emitPipelineVariablesMetric_increments GaugeVec.empty sampleDetails 42
    (fetchReturning ciVariables) matchCI ciVariables rfl (by decide)
  have h2 := emitPipelineVariablesMetric_increments GaugeVec.empty sampleDetails 43
    (fetchReturning baVariables) matchAll baVariables rfl (by decide)
  have h3 := emitPipelineVariablesMetric_increments
    ((GaugeVec.empty.WithLabelValues ["proj", "topic", "main", "CI_ENV,CI_TAG"]).Set
      ["proj", "topic", "main", "CI_ENV,CI_TAG"] 41)
    sampleDetails 42 (fetchReturning ciVariables) matchCI ciVariables rfl (by decide)
  exact ⟨⟨rfl, by decide, by decide, h1.1, (h1.2.2.1 (by decide)).trans (by decide)⟩,
    ⟨rfl, by decide, by decide, (h2.2.2.1 (by decide)).trans (by decide)⟩,
    (h3.2.2.1 (by decide)).trans (by decide)⟩

/-- C8 (no match, no series): when the fetch succeeds and its variable list is empty or has
no key matching the filter, `emitPipelineVariablesMetric` returns no error and the gauge
vector afterwards is exactly the one before: no series is created and none changes. -/
theorem emitPipelineVariablesMetric_no_match_unchanged (gauge : GaugeVec)
    (details : projectDetails) (pipelineID : Int) (fetch : pipelineVarsFetchOp)
    (filterRegexp : String → Bool) (vars : List PipelineVariable)
    (hfetch : fetch details.pID pipelineID = ⟨vars, none⟩)
    (hnone : ∀ v ∈ vars, filterRegexp v.Key = false) :
    (emitPipelineVariablesMetric gauge details pipelineID fetch filterRegexp).err = none ∧
    (emitPipelineVariablesMetric gauge details pipelineID fetch filterRegexp).gauge = gauge := by
  have hnil : (vars.filter (fun v => filterRegexp v.Key)).map PipelineVariable.Key = [] := by
    rw [List.map_eq_nil_iff, List.filter_eq_nil_iff]
    intro v hv
    simp [hnone v hv]
  rw [emitPipelineVariablesMetric_of_no_match gauge details pipelineID fetch filterRegexp vars
    hfetch hnil]
  exact ⟨rfl, rfl⟩

/-- Scenarios of C8: a fetch returning only the key SECRET under the filter `^CI_.*`, and a
fetch returning no variable, both from the same prior vector. -/
theorem emitPipelineVariablesMetric_no_match_unchanged_witness :
    (fetchReturning [⟨"SECRET", "hunter2", "env_var"⟩] sampleDetails.pID 42 =
        ⟨[⟨"SECRET", "hunter2", "env_var"⟩], none⟩ ∧
      (∀ v ∈ [(⟨"SECRET", "hunter2", "env_var"⟩ : PipelineVariable)], matchCI v.Key = false) ∧
      (emitPipelineVariablesMetric
        (GaugeVec.empty.WithLabelValues ["proj", "topic", "main", "CI_ENV"]) sampleDetails 42
        (fetchReturning [⟨"SECRET", "hunter2", "env_var"⟩]) matchCI).err = none ∧
      (emitPipelineVariablesMetric
        (GaugeVec.empty.WithLabelValues ["proj", "topic", "main", "CI_ENV"]) sampleDetails 42
        (fetchReturning [⟨"SECRET", "hunter2", "env_var"⟩]) matchCI).gauge =
        GaugeVec.empty.WithLabelValues ["proj", "topic", "main", "CI_ENV"]) ∧
    (fetchReturning [] sampleDetails.pID 42 = ⟨[], none⟩ ∧
      (emitPipelineVariablesMetric
        (GaugeVec.empty.WithLabelValues ["proj", "topic", "main", "CI_ENV"]) sampleDetails 42
        (fetchReturning []) matchAll).gauge =
        GaugeVec.empty.WithLabelValues ["proj", "topic", "main", "CI_ENV"]) :=
  ⟨⟨rfl, by decide,
      emitPipelineVariablesMetric_no_match_unchanged _ sampleDetails 42
        (fetchReturning [⟨"SECRET", "hunter2", "env_var"⟩]) matchCI
        [⟨"SECRET", "hunter2", "env_var"⟩] rfl (by decide)⟩,
    ⟨rfl,
      (emitPipelineVariablesMetric_no_match_unchanged _ sampleDetails 42
        (fetchReturning []) matchAll [] rfl (by decide)).2⟩⟩

/-- C9 (fetch failure): when the fetch returns an error `e`, `emitPipelineVariablesMetric`
returns the error `could not fetch pipeline variables for pipeline <p>: <e>`, whose message
contains the decimal rendering of the pipeline id `p` and the message `e`, and the gauge
vector afterwards is exactly the one before. -/
theorem emitPipelineVariablesMetric_fetch_error (gauge : GaugeVec) (details : projectDetails)
    (pipelineID : Int) (fetch : pipelineVarsFetchOp) (filterRegexp : String → Bool)
    (e : String) (hfetch : (fetch details.pID pipelineID).err = some e) :
    (emitPipelineVariablesMetric gauge details pipelineID fetch filterRegexp).err =
      some ("could not fetch pipeline variables for pipeline " ++ toString pipelineID
        ++ ": " ++ e) ∧
    (∃ msg pre post : String,
      (emitPipelineVariablesMetric gauge details pipelineID fetch filterRegexp).err = some msg ∧
      msg = pre ++ toString pipelineID ++ post) ∧
    (∃ msg pre post : String,
      (emitPipelineVariablesMetric gauge details pipelineID fetch filterRegexp).err = some msg ∧
      msg = pre ++ e ++ post) ∧
    (emitPipelineVariablesMetric gauge details pipelineID fetch filterRegexp).gauge = gauge := by
  rw [emitPipelineVariablesMetric_of_error gauge details pipelineID fetch filterRegexp e hfetch]
  refine ⟨rfl, ?_, ?_, rfl⟩
  · exact ⟨_, "could not fetch pipeline variables for pipeline ", ": " ++ e, rfl,
      by simp only [String.append_assoc]⟩
  · exact ⟨_, "could not fetch pipeline variables for pipeline " ++ toString pipelineID ++ ": ",
      "", rfl, by simp only [String.append_empty]⟩

/-- Scenario of C9: the fetch for pipeline 42 fails; the error names 42 and the cause, and a
vector holding one series is returned as it was. -/
theorem emitPipelineVariablesMetric_fetch_error_witness :
    (fetchFailing "500 Internal Server Error" sampleDetails.pID 42).err =
      some "500 Internal Server Error" ∧
    (emitPipelineVariablesMetric
      (GaugeVec.empty.WithLabelValues ["proj", "topic", "main", "CI_ENV"]) sampleDetails 42
      (fetchFailing "500 Internal Server Error") matchCI).err =
      some "could not fetch pipeline variables for pipeline 42: 500 Internal Server Error" ∧
    (emitPipelineVariablesMetric
      (GaugeVec.empty.WithLabelValues ["proj", "topic", "main", "CI_ENV"]) sampleDetails 42
      (fetchFailing "500 Internal Server Error") matchCI).gauge =
      GaugeVec.empty.WithLabelValues ["proj", "topic", "main", "CI_ENV"] := by
  have h := emitPipelineVariablesMetric_fetch_error
    (GaugeVec.empty.WithLabelValues ["proj", "topic", "main", "CI_ENV"]) sampleDetails 42
    (fetchFailing "500 Internal Server Error") matchCI "500 Internal Server Error" rfl
  exact ⟨rfl, h.1.trans (by decide), h.2.2.2⟩

/-- C10, as stated, fails: the fetches A, B and B, A have the same set of matching keys, yet
the first call increments the series of the label value `A,B` and the second the series of
`B,A`, leaving `A,B` absent. -/
theorem emitPipelineVariablesMetric_same_set_counterexample :
    (∀ k : String,
      k ∈ (abVariables.filter (fun v => matchAll v.Key)).map PipelineVariable.Key ↔
      k ∈ (baVariables.filter (fun v => matchAll v.Key)).map PipelineVariable.Key) ∧
    (emitPipelineVariablesMetric GaugeVec.empty sampleDetails 1 (fetchReturning abVariables)
        matchAll).events =
      [Event.rateLimit, Event.fetch 7 1, Event.inc ["proj", "topic", "main", "A,B"]] ∧
    (emitPipelineVariablesMetric GaugeVec.empty sampleDetails 2 (fetchReturning baVariables)
        matchAll).events =
      [Event.rateLimit, Event.fetch 7 2, Event.inc ["proj", "topic", "main", "B,A"]] ∧
    (emitPipelineVariablesMetric GaugeVec.empty sampleDetails 1 (fetchReturning abVariables)
        matchAll).gauge.metrics ["proj", "topic", "main", "A,B"] = some 1 ∧
    (emitPipelineVariablesMetric GaugeVec.empty sampleDetails 2 (fetchReturning baVariables)
        matchAll).gauge.metrics ["proj", "topic", "main", "A,B"] = none ∧
    (emitPipelineVariablesMetric GaugeVec.empty sampleDetails 2 (fetchReturning baVariables)
        matchAll).gauge.metrics ["proj", "topic", "main", "B,A"] = some 1 := by
  refine ⟨?_, by decide, by decide, by decide, by decide, by decide⟩
  intro k
  simp [abVariables, baVariables, matchAll, or_comm]

/-- C10 (amended): two successful fetches whose sequences of filter-matching keys are equal
and non-empty yield the same joined label value; each call applies the `float64` increment
to the series of that label value, and the second call made after the first applies it
twice; from a value of magnitude below 2^53 - 1 that is a rise by 1 and by 2. -/
theorem emitPipelineVariablesMetric_same_sequence (gauge : GaugeVec) (details : projectDetails)
    (p1 p2 : Int) (fetch1 fetch2 : pipelineVarsFetchOp) (filterRegexp : String → Bool)
    (vars1 vars2 : List PipelineVariable)
    (h1 : fetch1 details.pID p1 = ⟨vars1, none⟩) (h2 : fetch2 details.pID p2 = ⟨vars2, none⟩)
    (hseq : (vars1.filter (fun v => filterRegexp v.Key)).map PipelineVariable.Key =
      (vars2.filter (fun v => filterRegexp v.Key)).map PipelineVariable.Key)
    (hne : (vars1.filter (fun v => filterRegexp v.Key)).map PipelineVariable.Key ≠ []) :
    stringsJoin ((vars1.filter (fun v => filterRegexp v.Key)).map PipelineVariable.Key) "," =
      stringsJoin ((vars2.filter (fun v => filterRegexp v.Key)).map PipelineVariable.Key) "," ∧
    (emitPipelineVariablesMetric gauge details p1 fetch1 filterRegexp).gauge.metrics
        (details.entityLabels ++
          [stringsJoin ((vars1.filter (fun v => filterRegexp v.Key)).map
            PipelineVariable.Key) ","]) =
      some (roundFloat64 (gauge.value (details.entityLabels ++
          [stringsJoin ((vars1.filter (fun v => filterRegexp v.Key)).map
            PipelineVariable.Key) ","]) + 1)) ∧
    (emitPipelineVariablesMetric gauge details p2 fetch2 filterRegexp).gauge.metrics
        (details.entityLabels ++
          [stringsJoin ((vars1.filter (fun v => filterRegexp v.Key)).map
            PipelineVariable.Key) ","]) =
      some (roundFloat64 (gauge.value (details.entityLabels ++
          [stringsJoin ((vars1.filter (fun v => filterRegexp v.Key)).map
            PipelineVariable.Key) ","]) + 1)) ∧
    (emitPipelineVariablesMetric
        (emitPipelineVariablesMetric gauge details p1 fetch1 filterRegexp).gauge
        details p2 fetch2 filterRegexp).gauge.metrics
        (details.entityLabels ++
          [stringsJoin ((vars1.filter (fun v => filterRegexp v.Key)).map
            PipelineVariable.Key) ","]) =
      some (roundFloat64 (roundFloat64 (gauge.value (details.entityLabels ++
          [stringsJoin ((vars1.filter (fun v => filterRegexp v.Key)).map
            PipelineVariable.Key) ","]) + 1) + 1)) ∧
    ((gauge.value (details.entityLabels ++
          [stringsJoin ((vars1.filter (fun v => filterRegexp v.Key)).map
            PipelineVariable.Key) ","])).natAbs + 1 < 2 ^ 53 →
      (emitPipelineVariablesMetric gauge details p1 fetch1 filterRegexp).gauge.metrics
          (details.entityLabels ++
          [stringsJoin ((vars1.filter (fun v => filterRegexp v.Key)).map
            PipelineVariable.Key) ","]) =
        some (gauge.value (details.entityLabels ++
          [stringsJoin ((vars1.filter (fun v => filterRegexp v.Key)).map
            PipelineVariable.Key) ","]) + 1) ∧
      (emitPipelineVariablesMetric gauge details p2 fetch2 filterRegexp).gauge.metrics
          (details.entityLabels ++
          [stringsJoin ((vars1.filter (fun v => filterRegexp v.Key)).map
            PipelineVariable.Key) ","]) =
        some (gauge.value (details.entityLabels ++
          [stringsJoin ((vars1.filter (fun v => filterRegexp v.Key)).map
            PipelineVariable.Key) ","]) + 1) ∧
      (emitPipelineVariablesMetric
          (emitPipelineVariablesMetric gauge details p1 fetch1 filterRegexp).gauge
          details p2 fetch2 filterRegexp).gauge.metrics
          (details.entityLabels ++
          [stringsJoin ((vars1.filter (fun v => filterRegexp v.Key)).map
            PipelineVariable.Key) ","]) =
        some (gauge.value (details.entityLabels ++
          [stringsJoin ((vars1.filter (fun v => filterRegexp v.Key)).map
            PipelineVariable.Key) ","]) + 2)) := by
  have hne2 : (vars2.filter (fun v => filterRegexp v.Key)).map PipelineVariable.Key ≠ [] :=
    hseq ▸ hne
  rw [emitPipelineVariablesMetric_of_match _ details p2 fetch2 filterRegexp vars2 h2 hne2,
    emitPipelineVariablesMetric_of_match _ details p2 fetch2 filterRegexp vars2 h2 hne2,
    emitPipelineVariablesMetric_of_match _ details p1 fetch1 filterRegexp vars1 h1 hne,
    ← hseq]
  have hseqInc : ((((gauge.WithLabelValues (details.entityLabels ++
          [stringsJoin ((vars1.filter (fun v => filterRegexp v.Key)).map
            PipelineVariable.Key) ","])).Inc (details.entityLabels ++
          [stringsJoin ((vars1.filter (fun v => filterRegexp v.Key)).map
            PipelineVariable.Key) ","])).WithLabelValues (details.entityLabels ++
          [stringsJoin ((vars1.filter (fun v => filterRegexp v.Key)).map
            PipelineVariable.Key) ","])).Inc (details.entityLabels ++
          [stringsJoin ((vars1.filter (fun v => filterRegexp v.Key)).map
            PipelineVariable.Key) ","])).metrics (details.entityLabels ++
          [stringsJoin ((vars1.filter (fun v => filterRegexp v.Key)).map
            PipelineVariable.Key) ","]) =
      some (roundFloat64 (roundFloat64 (gauge.value (details.entityLabels ++
          [stringsJoin ((vars1.filter (fun v => filterRegexp v.Key)).map
            PipelineVariable.Key) ","]) + 1) + 1)) := by
    simp only [GaugeVec.inc_withLabelValues_metrics, GaugeVec.value, if_true, Option.getD_some]
  refine ⟨rfl, ?_, ?_, hseqInc, ?_⟩
  · simp only [GaugeVec.inc_withLabelValues_metrics, if_true]
  · simp only [GaugeVec.inc_withLabelValues_metrics, if_true]
  · intro hb
    have e1 : roundFloat64 (gauge.value (details.entityLabels ++
          [stringsJoin ((vars1.filter (fun v => filterRegexp v.Key)).map
            PipelineVariable.Key) ","]) + 1) = gauge.value (details.entityLabels ++
          [stringsJoin ((vars1.filter (fun v => filterRegexp v.Key)).map
            PipelineVariable.Key) ","]) + 1 :=
      roundFloat64_succ_of_natAbs_lt _ (by omega)
    have e2 : roundFloat64 (gauge.value (details.entityLabels ++
          [stringsJoin ((vars1.filter (fun v => filterRegexp v.Key)).map
            PipelineVariable.Key) ","]) + 1 + 1) = gauge.value (details.entityLabels ++
          [stringsJoin ((vars1.filter (fun v => filterRegexp v.Key)).map
            PipelineVariable.Key) ","]) + 1 + 1 :=
      roundFloat64_succ_of_natAbs_lt _ (by omega)
    refine ⟨?_, ?_, ?_⟩
    · simp only [GaugeVec.inc_withLabelValues_metrics, if_true, e1]
    · simp only [GaugeVec.inc_withLabelValues_metrics, if_true, e1]
    · rw [hseqInc, e1, e2]
      congr 1
      ring

/-- Scenario of the amended C10: the keys CI_ENV, SECRET, CI_TAG and the keys CI_ENV, CI_TAG
under the filter `^CI_.*`. -/
theorem emitPipelineVariablesMetric_same_sequence_witness :
    fetchReturning ciVariables sampleDetails.pID 1 = ⟨ciVariables, none⟩ ∧
    fetchReturning ciOnlyVariables sampleDetails.pID 2 = ⟨ciOnlyVariables, none⟩ ∧
    (ciVariables.filter (fun v => matchCI v.Key)).map PipelineVariable.Key =
      (ciOnlyVariables.filter (fun v => matchCI v.Key)).map PipelineVariable.Key ∧
    (ciVariables.filter (fun v => matchCI v.Key)).map PipelineVariable.Key ≠ [] ∧
    (emitPipelineVariablesMetric GaugeVec.empty sampleDetails 1 (fetchReturning ciVariables)
      matchCI).gauge.metrics ["proj", "topic", "main", "CI_ENV,CI_TAG"] = some 1 ∧
    (emitPipelineVariablesMetric GaugeVec.empty sampleDetails 2 (fetchReturning ciOnlyVariables)
      matchCI).gauge.metrics ["proj", "topic", "main", "CI_ENV,CI_TAG"] = some 1 ∧
    (emitPipelineVariablesMetric
      (emitPipelineVariablesMetric GaugeVec.empty sampleDetails 1 (fetchReturning ciVariables)
        matchCI).gauge
      sampleDetails 2 (fetchReturning ciOnlyVariables) matchCI).gauge.metrics
      ["proj", "topic", "main", "CI_ENV,CI_TAG"] = some 2 := by
  have h := (emitPipelineVariablesMetric_same_sequence GaugeVec.empty sampleDetails 1 2
    (fetchReturning ciVariables) (fetchReturning ciOnlyVariables) matchCI ciVariables
    ciOnlyVariables rfl rfl (by decide) (by decide)).2.2.2.2 (by decide)
  exact ⟨rfl, rfl, by decide, by decide, h.1, h.2.1, h.2.2⟩

/-- The steps of a call are the gate, the fetch, and at most one increment after them. -/
theorem emitPipelineVariablesMetric_events (gauge : GaugeVec) (details : projectDetails)
    (pipelineID : Int) (fetch : pipelineVarsFetchOp) (filterRegexp : String → Bool) :
    (emitPipelineVariablesMetric gauge details pipelineID fetch filterRegexp).events =
        [Event.rateLimit, Event.fetch details.pID pipelineID] ∨
    ∃ lvs, (emitPipelineVariablesMetric gauge details pipelineID fetch filterRegexp).events =
        [Event.rateLimit, Event.fetch details.pID pipelineID, Event.inc lvs] := by
  cases hf : fetch details.pID pipelineID with
  | mk vars err =>
    cases err with
    | some e =>
      left
      rw [emitPipelineVariablesMetric_of_error gauge details pipelineID fetch filterRegexp e
        (by rw [hf])]
    | none =>
      by_cases hk : (vars.filter (fun v => filterRegexp v.Key)).map PipelineVariable.Key = []
      · left
        rw [emitPipelineVariablesMetric_of_no_match gauge details pipelineID fetch
          filterRegexp vars hf hk]
      · right
        rw [emitPipelineVariablesMetric_of_match gauge details pipelineID fetch
          filterRegexp vars hf hk]
        exact ⟨_, rfl⟩

/-! ## Rate-limit gate -/

/-- C11 (gate ordering): in every call of `emitPipelineVariablesMetric`, whatever the fetch
returns and whatever matches, the trace of steps holds the rate-limiter gate exactly once
and the fetch exactly once, the gate first and the fetch right after it; any gauge write
comes later. -/
theorem emitPipelineVariablesMetric_gate_before_fetch (gauge : GaugeVec)
    (details : projectDetails) (pipelineID : Int) (fetch : pipelineVarsFetchOp)
    (filterRegexp : String → Bool) :
    (emitPipelineVariablesMetric gauge details pipelineID fetch filterRegexp).events.count
        Event.rateLimit = 1 ∧
    (emitPipelineVariablesMetric gauge details pipelineID fetch filterRegexp).events.count
        (Event.fetch details.pID pipelineID) = 1 ∧
    (∀ e ∈ (emitPipelineVariablesMetric gauge details pipelineID fetch filterRegexp).events,
      (∃ p q, e = Event.fetch p q) → e = Event.fetch details.pID pipelineID) ∧
    (emitPipelineVariablesMetric gauge details pipelineID fetch filterRegexp).events.take 2 =
        [Event.rateLimit, Event.fetch details.pID pipelineID] ∧
    (∀ lvs, Event.inc lvs ∉
      (emitPipelineVariablesMetric gauge details pipelineID fetch filterRegexp).events.take 2)
    := by
  rcases emitPipelineVariablesMetric_events gauge details pipelineID fetch filterRegexp with
    h | ⟨lvs, h⟩
  · rw [h]
    refine ⟨by simp [List.count_cons], by simp [List.count_cons], ?_, rfl, by simp⟩
    intro e he hpq
    simp at he
    rcases he with rfl | rfl
    · obtain ⟨p, q, h⟩ := hpq
      cases h
    · rfl
  · rw [h]
    refine ⟨by simp [List.count_cons], by simp [List.count_cons], ?_, rfl, by simp⟩
    intro e he hpq
    simp at he
    rcases he with rfl | rfl | rfl
    · obtain ⟨p, q, h⟩ := hpq
      cases h
    · rfl
    · obtain ⟨p, q, h⟩ := hpq
      cases h

/-! ## Lemmas on registration -/

theorem Registry.hasName_append (cs : List GaugeVecDecl) (c : GaugeVecDecl) (name : String) :
    Registry.hasName ⟨cs ++ [c]⟩ name =
      (Registry.hasName ⟨cs⟩ name || decide (c.Name = name)) := by
  simp [Registry.hasName, List.any_append]

theorem registerLoop_cons_refused (r : Registry) (m : GaugeVecDecl) (ms : List GaugeVecDecl)
    (h : r.hasName m.Name = true) : registerLoop r (m :: ms) = ⟨r, some m⟩ := by
  simp [registerLoop, Registry.Register, h]

theorem registerLoop_cons_added (r : Registry) (m : GaugeVecDecl) (ms : List GaugeVecDecl)
    (h : r.hasName m.Name = false) :
    registerLoop r (m :: ms) = registerLoop ⟨r.collectors ++ [m]⟩ ms := by
  simp [registerLoop, Registry.Register, h]

/-- The loop only ever adds to the registry. -/
theorem registerLoop_collectors (ms : List GaugeVecDecl) :
    ∀ r : Registry, ∃ added : List GaugeVecDecl,
      (registerLoop r ms).registry.collectors = r.collectors ++ added := by
  induction ms with
  | nil => intro r; exact ⟨[], by simp [registerLoop]⟩
  | cons m ms ih =>
    intro r
    cases h : r.hasName m.Name with
    | true => exact ⟨[], by rw [registerLoop_cons_refused r m ms h]; simp⟩
    | false =>
      obtain ⟨added, ha⟩ := ih ⟨r.collectors ++ [m]⟩
      exact ⟨m :: added, by rw [registerLoop_cons_added r m ms h, ha]; simp⟩

/-- With pairwise distinct names, the loop reports an error exactly when one of the families
has its name in the registry beforehand. -/
theorem registerLoop_err_iff (ms : List GaugeVecDecl) :
    (ms.map GaugeVecDecl.Name).Nodup → ∀ r : Registry,
      ((registerLoop r ms).err ≠ none ↔ ∃ m ∈ ms, r.hasName m.Name = true) := by
  induction ms with
  | nil => intro _ r; simp [registerLoop]
  | cons m ms ih =>
    intro hnd r
    rw [List.map_cons, List.nodup_cons] at hnd
    cases h : r.hasName m.Name with
    | true =>
      rw [registerLoop_cons_refused r m ms h]
      simp [h]
    | false =>
      rw [registerLoop_cons_added r m ms h, ih hnd.2]
      constructor
      · rintro ⟨x, hx, hxn⟩
        refine ⟨x, List.mem_cons_of_mem m hx, ?_⟩
        rw [Registry.hasName_append] at hxn
        have hne : m.Name ≠ x.Name := fun he =>
          hnd.1 (he ▸ List.mem_map.mpr ⟨x, hx, rfl⟩)
        simpa [hne] using hxn
      · rintro ⟨x, hx, hxn⟩
        rcases List.mem_cons.mp hx with rfl | hx
        · rw [h] at hxn; cases hxn
        · refine ⟨x, hx, ?_⟩
          rw [Registry.hasName_append]
          simp [show Registry.hasName ⟨r.collectors⟩ x.Name = true from hxn]

/-- When the loop reports no error, every family has been added. -/
theorem registerLoop_ok_collectors (ms : List GaugeVecDecl) :
    ∀ r : Registry, (registerLoop r ms).err = none →
      (registerLoop r ms).registry.collectors = r.collectors ++ ms := by
  induction ms with
  | nil => intro r _; simp [registerLoop]
  | cons m ms ih =>
    intro r hok
    cases h : r.hasName m.Name with
    | true =>
      rw [registerLoop_cons_refused r m ms h] at hok
      cases hok
    | false =>
      rw [registerLoop_cons_added r m ms h] at hok ⊢
      rw [ih _ hok]
      simp

/-- The loop stops at the first family whose name is in the registry, having added the
families before it. -/
theorem registerLoop_first_collision (pre : List GaugeVecDecl) (m : GaugeVecDecl)
    (post : List GaugeVecDecl) :
    (pre.map GaugeVecDecl.Name).Nodup → ∀ r : Registry,
      (∀ p ∈ pre, r.hasName p.Name = false) → r.hasName m.Name = true →
      registerLoop r (pre ++ m :: post) = ⟨⟨r.collectors ++ pre⟩, some m⟩ := by
  induction pre with
  | nil =>
    intro _ r _ hm
    rw [List.nil_append, registerLoop_cons_refused r m post hm]
    simp
  | cons p pre ih =>
    intro hnd r hpre hm
    rw [List.map_cons, List.nodup_cons] at hnd
    rw [List.cons_append, registerLoop_cons_added r p _ (hpre p (List.mem_cons_self p pre)),
      ih hnd.2]
    · simp
    · intro q hq
      rw [Registry.hasName_append]
      have hne : p.Name ≠ q.Name := fun he =>
        hnd.1 (he ▸ List.mem_map.mpr ⟨q, hq, rfl⟩)
      simpa [hne] using hpre q (List.mem_cons_of_mem p hq)
    · rw [Registry.hasName_append]
      simp [show Registry.hasName ⟨r.collectors⟩ m.Name = true from hm]

theorem Registry.hasName_of_mem (r : Registry) (m : GaugeVecDecl) (h : m ∈ r.collectors) :
    r.hasName m.Name = true := by
  simp only [Registry.hasName, List.any_eq_true, decide_eq_true_eq]
  exact ⟨m, h, rfl⟩

theorem Registry.hasName_append_list (cs added : List GaugeVecDecl) (name : String) :
    Registry.hasName ⟨cs ++ added⟩ name =
      (Registry.hasName ⟨cs⟩ name || added.any (fun c => decide (c.Name = name))) := by
  simp [Registry.hasName, List.any_append]

theorem defaultMetrics_names_nodup : (defaultMetrics.map GaugeVecDecl.Name).Nodup := by
  decide

/-! ## Registration of the predefined families -/

/-- C12 (default registration): the twelve predefined families have pairwise distinct names;
`RegisterDefaultMetrics` returns an error exactly when the name of one of them is already in
the registry; without error all twelve are registered afterwards; it succeeds on a new
registry, and a second call on the same registry fails. -/
theorem registerDefaultMetrics_error_iff_collision :
    defaultMetrics.length = 12 ∧
    (defaultMetrics.map GaugeVecDecl.Name).Nodup ∧
    (∀ r : Registry, (r.RegisterDefaultMetrics).err ≠ none ↔
      ∃ m ∈ defaultMetrics, r.hasName m.Name = true) ∧
    (∀ r : Registry, (r.RegisterDefaultMetrics).err = none →
      ∀ m ∈ defaultMetrics, m ∈ (r.RegisterDefaultMetrics).registry.collectors ∧
        (r.RegisterDefaultMetrics).registry.hasName m.Name = true) ∧
    (NewRegistry.RegisterDefaultMetrics).err = none ∧
    (∀ r : Registry,
      ((r.RegisterDefaultMetrics).registry.RegisterDefaultMetrics).err ≠ none) := by
  have hall : ∀ r : Registry, (r.RegisterDefaultMetrics).err = none →
      ∀ m ∈ defaultMetrics, m ∈ (r.RegisterDefaultMetrics).registry.collectors ∧
        (r.RegisterDefaultMetrics).registry.hasName m.Name = true := by
    intro r hok m hm
    have hmem : m ∈ (r.RegisterDefaultMetrics).registry.collectors := by
      unfold Registry.RegisterDefaultMetrics at hok ⊢
      rw [registerLoop_ok_collectors defaultMetrics r hok]
      exact List.mem_append_right _ hm
    exact ⟨hmem, Registry.hasName_of_mem _ m hmem⟩
  refine ⟨rfl, defaultMetrics_names_nodup,
    fun r => registerLoop_err_iff defaultMetrics defaultMetrics_names_nodup r, hall,
    by decide, ?_⟩
  intro r
  rw [Registry.RegisterDefaultMetrics,
    registerLoop_err_iff defaultMetrics defaultMetrics_names_nodup]
  by_cases hok : (r.RegisterDefaultMetrics).err = none
  · exact ⟨coverage, by decide, (hall r hok coverage (by decide)).2⟩
  · obtain ⟨m, hm, hmn⟩ :=
      (registerLoop_err_iff defaultMetrics defaultMetrics_names_nodup r).mp hok
    obtain ⟨added, ha⟩ := registerLoop_collectors defaultMetrics r
    refine ⟨m, hm, ?_⟩
    have : (r.RegisterDefaultMetrics).registry = ⟨r.collectors ++ added⟩ := by
      cases hreg : (r.RegisterDefaultMetrics).registry with
      | mk cs =>
        unfold Registry.RegisterDefaultMetrics at hreg
        rw [hreg] at ha
        simp only at ha
        rw [ha]
    rw [this, Registry.hasName_append_list]
    simp [show Registry.hasName ⟨r.collectors⟩ m.Name = true from hmn]

/-- C13, as stated, fails: `pipelineVariables` is a family of the pipeline entity that is not
a status family, and the labels of the pipeline status family are not its labels followed
by `status`. -/
theorem defaultMetrics_status_labels_counterexample :
    pipelineVariables ∈ defaultMetrics ∧ isStatusFamily pipelineVariables = false ∧
    lastRunStatus ∈ defaultMetrics ∧ isStatusFamily lastRunStatus = true ∧
    isJobLevel pipelineVariables = isJobLevel lastRunStatus ∧
    lastRunStatus.labelNames ≠ pipelineVariables.labelNames ++ ["status"] := by
  refine ⟨by decide, by decide, by decide, by decide, by decide, by decide⟩

/-- C13 (amended): every predefined family declares label names that begin with project,
topics, ref; every job-level family continues with stage, job_name; there are two status
families, and the label list of each is the label list of every other family of the same
entity except `pipelineVariables`, followed by the single label status; the label list of
`pipelineVariables` is the pipeline's label list followed by pipeline_variables. -/
theorem defaultMetrics_label_names :
    (∀ m ∈ defaultMetrics, m.labelNames.take 3 = ["project", "topics", "ref"]) ∧
    (∀ m ∈ defaultMetrics, isJobLevel m = true →
      m.labelNames.take 5 = ["project", "topics", "ref", "stage", "job_name"]) ∧
    defaultMetrics.filter isJobLevel = [lastRunJobDuration, lastRunJobStatus,
      lastRunJobArtifactSize, timeSinceLastJobRun, jobRunCount] ∧
    defaultMetrics.filter isStatusFamily = [lastRunJobStatus, lastRunStatus] ∧
    (∀ s ∈ defaultMetrics, isStatusFamily s = true →
      ∀ m ∈ defaultMetrics, isStatusFamily m = false → isJobLevel m = isJobLevel s →
        m ≠ pipelineVariables → s.labelNames = m.labelNames ++ ["status"]) ∧
    pipelineVariables.labelNames = coverage.labelNames ++ ["pipeline_variables"] := by
  refine ⟨by decide, by decide, by decide, by decide, by decide, by decide⟩

/-- C19 (registration is not atomic): when the first predefined family whose name is already
in the registry is `m`, with the families `pre` before it and `post` after it in
`defaultMetrics`, `RegisterDefaultMetrics` reports `m` and leaves the registry with the
families of `pre` added after the former content and nothing else: the families of `post`
are present exactly if they were before, and the registry is unchanged exactly when
`pre` is empty. -/
theorem registerDefaultMetrics_not_atomic (r : Registry) (pre : List GaugeVecDecl)
    (m : GaugeVecDecl) (post : List GaugeVecDecl)
    (hsplit : defaultMetrics = pre ++ m :: post)
    (hpre : ∀ p ∈ pre, r.hasName p.Name = false) (hm : r.hasName m.Name = true) :
    (r.RegisterDefaultMetrics).err = some m ∧
    (r.RegisterDefaultMetrics).registry.collectors = r.collectors ++ pre ∧
    (∀ p ∈ pre, p ∈ (r.RegisterDefaultMetrics).registry.collectors ∧
      (r.RegisterDefaultMetrics).registry.hasName p.Name = true) ∧
    (∀ q ∈ post, ((r.RegisterDefaultMetrics).registry.hasName q.Name = r.hasName q.Name) ∧
      (q ∈ (r.RegisterDefaultMetrics).registry.collectors ↔ q ∈ r.collectors)) ∧
    ((r.RegisterDefaultMetrics).registry = r ↔ pre = []) := by
  have hnd : ((pre ++ m :: post).map GaugeVecDecl.Name).Nodup :=
    hsplit ▸ defaultMetrics_names_nodup
  rw [List.map_append, List.nodup_append] at hnd
  obtain ⟨hndpre, _, hdisj⟩ := hnd
  have hres : r.RegisterDefaultMetrics = ⟨⟨r.collectors ++ pre⟩, some m⟩ := by
    rw [Registry.RegisterDefaultMetrics, hsplit]
    exact registerLoop_first_collision pre m post hndpre r hpre hm
  rw [hres]
  refine ⟨rfl, rfl, ?_, ?_, ?_⟩
  · intro p hp
    have hmem : p ∈ r.collectors ++ pre := List.mem_append_right _ hp
    exact ⟨hmem, Registry.hasName_of_mem ⟨r.collectors ++ pre⟩ p hmem⟩
  · intro q hq
    have hqn : q.Name ∈ (m :: post).map GaugeVecDecl.Name :=
      List.mem_map.mpr ⟨q, List.mem_cons_of_mem m hq, rfl⟩
    have hnot : ∀ p ∈ pre, p.Name ≠ q.Name := fun p hp he =>
      hdisj (List.mem_map.mpr ⟨p, hp, rfl⟩) (he ▸ hqn)
    constructor
    · rw [Registry.hasName_append_list]
      have : pre.any (fun c => decide (c.Name = q.Name)) = false := by
        rw [List.any_eq_false]
        intro p hp
        simpa using hnot p hp
      rw [this, Bool.or_false]
    · simp only [List.mem_append]
      constructor
      · rintro (h | h)
        · exact h
        · exact absurd rfl (hnot q h)
      · exact Or.inl
  · constructor
    · intro h
      have hc : r.collectors ++ pre = r.collectors := congrArg Registry.collectors h
      exact List.append_right_eq_self.mp hc
    · intro h
      subst h
      simp

/-- Scenario of C19: the third family, `lastRunJobDuration`, is registered beforehand; the
call reports it, having added `coverage` and `lastRunDuration`. -/
theorem registerDefaultMetrics_not_atomic_witness :
    defaultMetrics = [coverage, lastRunDuration] ++ lastRunJobDuration ::
      [lastRunJobStatus, lastRunJobArtifactSize, timeSinceLastJobRun, jobRunCount, lastRunID,
        lastRunStatus, runCount, timeSinceLastRun, pipelineVariables] ∧
    (∀ p ∈ [coverage, lastRunDuration],
      Registry.hasName ⟨[lastRunJobDuration]⟩ p.Name = false) ∧
    Registry.hasName ⟨[lastRunJobDuration]⟩ lastRunJobDuration.Name = true ∧
    (Registry.RegisterDefaultMetrics ⟨[lastRunJobDuration]⟩).err = some lastRunJobDuration ∧
    (Registry.RegisterDefaultMetrics ⟨[lastRunJobDuration]⟩).registry.collectors =
      [lastRunJobDuration, coverage, lastRunDuration] ∧
    ¬ (Registry.RegisterDefaultMetrics ⟨[lastRunJobDuration]⟩).registry =
      ⟨[lastRunJobDuration]⟩ := by
  have h := registerDefaultMetrics_not_atomic ⟨[lastRunJobDuration]⟩
    [coverage, lastRunDuration] lastRunJobDuration
    [lastRunJobStatus, lastRunJobArtifactSize, timeSinceLastJobRun, jobRunCount, lastRunID,
      lastRunStatus, runCount, timeSinceLastRun, pipelineVariables]
    rfl (by decide) (by decide)
  exact ⟨rfl, by decide, by decide, h.1, h.2.1, fun hr => by
    have := h.2.2.2.2.mp hr
    cases this⟩

/-! ## Status emission: frame and enumeration -/

/-- C15 (frame of status emission): `emitStatusMetric` leaves as it was every series whose
label tuple is not the base tuple followed by a member of the enumeration; in particular
the series of any other base tuple, and the series of the base tuple followed by a status
outside the enumeration, which keeps even a stale value 1. -/
theorem emitStatusMetric_frame (metric : GaugeVec) (labelValues statuses : List String)
    (status : String) (sparseMetrics : Bool) :
    (∀ k : List String, (∀ m ∈ statuses, k ≠ labelValues ++ [m]) →
      (emitStatusMetric metric labelValues statuses status sparseMetrics).metrics k =
        metric.metrics k) ∧
    (∀ (other : List String) (x : String), other ≠ labelValues →
      (emitStatusMetric metric labelValues statuses status sparseMetrics).metrics
        (other ++ [x]) = metric.metrics (other ++ [x])) ∧
    (∀ x : String, x ∉ statuses →
      (emitStatusMetric metric labelValues statuses status sparseMetrics).metrics
        (labelValues ++ [x]) = metric.metrics (labelValues ++ [x])) := by
  refine ⟨fun k h => emitStatusMetric_other _ _ _ _ _ _ h, ?_, ?_⟩
  · intro other x hne
    apply emitStatusMetric_other
    intro m _ heq
    exact hne (List.append_inj' heq rfl).1
  · intro x hx
    apply emitStatusMetric_other
    intro m hm heq
    have : x = m := by simpa using heq
    exact hx (this ▸ hm)

/-- Scenario of C15: the series of `pending`, a status outside the enumeration, and the
series of another ref hold 1 beforehand and still hold 1 after `success` is emitted. -/
theorem emitStatusMetric_frame_witness :
    "pending" ∉ ["success", "failed"] ∧
    (emitStatusMetric
      ((((GaugeVec.empty.WithLabelValues ["proj", "topic", "main", "pending"]).Set
        ["proj", "topic", "main", "pending"] 1).WithLabelValues
        ["proj", "topic", "dev", "failed"]).Set ["proj", "topic", "dev", "failed"] 1)
      ["proj", "topic", "main"] ["success", "failed"] "success" false).metrics
      ["proj", "topic", "main", "pending"] = some 1 ∧
    (emitStatusMetric
      ((((GaugeVec.empty.WithLabelValues ["proj", "topic", "main", "pending"]).Set
        ["proj", "topic", "main", "pending"] 1).WithLabelValues
        ["proj", "topic", "dev", "failed"]).Set ["proj", "topic", "dev", "failed"] 1)
      ["proj", "topic", "main"] ["success", "failed"] "success" false).metrics
      ["proj", "topic", "dev", "failed"] = some 1 := by
  have h := emitStatusMetric_frame
    ((((GaugeVec.empty.WithLabelValues ["proj", "topic", "main", "pending"]).Set
      ["proj", "topic", "main", "pending"] 1).WithLabelValues
      ["proj", "topic", "dev", "failed"]).Set ["proj", "topic", "dev", "failed"] 1)
    ["proj", "topic", "main"] ["success", "failed"] "success" false
  exact ⟨by decide, (h.2.2 "pending" (by decide)).trans (by decide),
    (h.2.1 ["proj", "topic", "dev"] "failed" (by decide)).trans (by decide)⟩

/-- C18 (order and duplicates of the enumeration): two enumerations with the same members,
in any order and with any repetitions, make `emitStatusMetric` yield the same vector from
the same prior vector, base tuple, observed status and mode. -/
theorem emitStatusMetric_enumeration_members (metric : GaugeVec)
    (labelValues statuses1 statuses2 : List String) (status : String) (sparseMetrics : Bool)
    (hmem : ∀ m : String, m ∈ statuses1 ↔ m ∈ statuses2) :
    emitStatusMetric metric labelValues statuses1 status sparseMetrics =
      emitStatusMetric metric labelValues statuses2 status sparseMetrics := by
  apply GaugeVec.ext
  funext k
  by_cases h : ∃ m ∈ statuses1, k = labelValues ++ [m]
  · obtain ⟨m, hm, rfl⟩ := h
    rw [emitStatusMetric_member _ _ _ _ _ _ hm,
      emitStatusMetric_member _ _ _ _ _ _ ((hmem m).mp hm)]
  · have h1 : ∀ m ∈ statuses1, k ≠ labelValues ++ [m] := fun m hm hk => h ⟨m, hm, hk⟩
    have h2 : ∀ m ∈ statuses2, k ≠ labelValues ++ [m] :=
      fun m hm hk => h ⟨m, (hmem m).mpr hm, hk⟩
    rw [emitStatusMetric_other _ _ _ _ _ _ h1, emitStatusMetric_other _ _ _ _ _ _ h2]

/-- Scenario of C18: success / failed / running against running / success / failed / success. -/
theorem emitStatusMetric_enumeration_members_witness :
    (∀ m : String, m ∈ ["success", "failed", "running"] ↔
      m ∈ ["running", "success", "failed", "success"]) ∧
    emitStatusMetric GaugeVec.empty ["proj", "topic", "main"]
        ["success", "failed", "running"] "failed" true =
      emitStatusMetric GaugeVec.empty ["proj", "topic", "main"]
        ["running", "success", "failed", "success"] "failed" true := by
  have hmem : ∀ m : String, m ∈ ["success", "failed", "running"] ↔
      m ∈ ["running", "success", "failed", "success"] := by
    intro m
    simp only [List.mem_cons, List.mem_singleton, List.not_mem_nil, or_false]
    tauto
  exact ⟨hmem, emitStatusMetric_enumeration_members _ _ _ _ _ _ hmem⟩

/-! ## Pipeline-variable emission: repeated calls and dependence on the fetch -/

theorem emitPipelineVariablesRuns_cons (gauge : GaugeVec) (details : projectDetails)
    (filterRegexp : String → Bool) (c : Int × pipelineVarsFetchOp)
    (calls : List (Int × pipelineVarsFetchOp)) :
    emitPipelineVariablesRuns gauge details filterRegexp (c :: calls) =
      emitPipelineVariablesRuns
        (emitPipelineVariablesMetric gauge details c.1 c.2 filterRegexp).gauge
        details filterRegexp calls := rfl

/-- From 0, `n` increments of a `float64` gauge reach `n` up to 2^53 and stay at 2^53
from there on. -/
theorem iterate_inc_zero (n : Nat) :
    Nat.iterate (fun v : Int => roundFloat64 (v + 1)) n 0 = min (n : Int) (2 ^ 53) := by
  induction n with
  | zero => simp
  | succ n ih =>
    rw [Function.iterate_succ_apply', ih]
    by_cases hlt : n < 2 ^ 53
    · have h1 : min (n : Int) (2 ^ 53) = n := by
        apply min_eq_left
        exact_mod_cast hlt.le
      have h2 : min ((n + 1 : Nat) : Int) (2 ^ 53) = ((n + 1 : Nat) : Int) := by
        apply min_eq_left
        exact_mod_cast hlt
      rw [h1, h2, roundFloat64_succ_of_natAbs_lt _ (by simpa using hlt)]
      push_cast
      rfl
    · have hge : 2 ^ 53 ≤ n := Nat.le_of_not_lt hlt
      have h1 : min (n : Int) (2 ^ 53) = 2 ^ 53 := by
        apply min_eq_right
        exact_mod_cast hge
      have h2 : min ((n + 1 : Nat) : Int) (2 ^ 53) = 2 ^ 53 := by
        apply min_eq_right
        exact_mod_cast Nat.le_succ_of_le hge
      rw [h1, h2]
      exact roundFloat64_two_pow_53_succ

/-- Calls that all match the key sequence `keys` apply the increment to its series once
each. -/
theorem emitPipelineVariablesRuns_metrics (details : projectDetails)
    (filterRegexp : String → Bool) (keys : List String) (hkeys : keys ≠ [])
    (calls : List (Int × pipelineVarsFetchOp)) :
    ∀ gauge : GaugeVec, calls ≠ [] →
      (∀ c ∈ calls, ∃ vars, c.2 details.pID c.1 = ⟨vars, none⟩ ∧
        (vars.filter (fun v => filterRegexp v.Key)).map PipelineVariable.Key = keys) →
      (emitPipelineVariablesRuns gauge details filterRegexp calls).metrics
          (details.entityLabels ++ [stringsJoin keys ","]) =
        some (Nat.iterate (fun v : Int => roundFloat64 (v + 1)) calls.length
          (gauge.value (details.entityLabels ++ [stringsJoin keys ","]))) := by
  induction calls with
  | nil => intro gauge h; exact absurd rfl h
  | cons c cs ih =>
    intro gauge _ hcalls
    obtain ⟨vars, hf, hk⟩ := hcalls c (List.mem_cons_self c cs)
    have hstep : (emitPipelineVariablesMetric gauge details c.1 c.2 filterRegexp).gauge.metrics
        (details.entityLabels ++ [stringsJoin keys ","]) =
        some (roundFloat64
          (gauge.value (details.entityLabels ++ [stringsJoin keys ","]) + 1)) := by
      rw [emitPipelineVariablesMetric_of_match gauge details c.1 c.2 filterRegexp vars hf
        (hk ▸ hkeys), hk]
      simp only [GaugeVec.inc_withLabelValues_metrics, if_true]
    rw [emitPipelineVariablesRuns_cons]
    by_cases hcs : cs = []
    · subst hcs
      simp only [emitPipelineVariablesRuns, List.foldl_nil, List.length_singleton]
      rw [hstep]
      rfl
    · rw [ih _ hcs (fun c' hc' => hcalls c' (List.mem_cons_of_mem c hc'))]
      simp only [GaugeVec.value, hstep, Option.getD_some, List.length_cons,
        Function.iterate_succ_apply]

/-- C14, as stated, fails: from an absent series, after 2^53 + 1 successful calls that all
match the keys CI_ENV, CI_TAG the series holds 2^53, not 2^53 + 1, because the `float64`
gauge absorbs an increment at 2^53. -/
theorem emitPipelineVariablesRuns_counts_counterexample :
    GaugeVec.empty.metrics ["proj", "topic", "main", "CI_ENV,CI_TAG"] = none ∧
    (List.replicate (2 ^ 53 + 1) ((1 : Int), fetchReturning ciVariables)).length = 2 ^ 53 + 1 ∧
    (∀ c ∈ List.replicate (2 ^ 53 + 1) ((1 : Int), fetchReturning ciVariables),
      ∃ vars, c.2 sampleDetails.pID c.1 = ⟨vars, none⟩ ∧
        (vars.filter (fun v => matchCI v.Key)).map PipelineVariable.Key =
          ["CI_ENV", "CI_TAG"]) ∧
    (emitPipelineVariablesRuns GaugeVec.empty sampleDetails matchCI
      (List.replicate (2 ^ 53 + 1) ((1 : Int), fetchReturning ciVariables))).metrics
      ["proj", "topic", "main", "CI_ENV,CI_TAG"] = some 9007199254740992 ∧
    ((9007199254740992 : Int) ≠ ((2 ^ 53 + 1 : Nat) : Int)) := by
  have hcalls : ∀ c ∈ List.replicate (2 ^ 53 + 1) ((1 : Int), fetchReturning ciVariables),
      ∃ vars, c.2 sampleDetails.pID c.1 = ⟨vars, none⟩ ∧
        (vars.filter (fun v => matchCI v.Key)).map PipelineVariable.Key =
          ["CI_ENV", "CI_TAG"] := by
    intro c hc
    rw [List.eq_of_mem_replicate hc]
    exact ⟨ciVariables, rfl, by decide⟩
  have hne : List.replicate (2 ^ 53 + 1) ((1 : Int), fetchReturning ciVariables) ≠ [] := by
    rw [List.replicate_succ]
    exact List.cons_ne_nil _ _
  have h := emitPipelineVariablesRuns_metrics sampleDetails matchCI ["CI_ENV", "CI_TAG"]
    (by decide) _ GaugeVec.empty hne hcalls
  rw [List.length_replicate] at h
  have hv : GaugeVec.empty.value
      (sampleDetails.entityLabels ++ [stringsJoin ["CI_ENV", "CI_TAG"] ","]) = 0 := rfl
  rw [hv, iterate_inc_zero] at h
  refine ⟨rfl, List.length_replicate _ _, hcalls, ?_, by norm_num⟩
  rw [show (["proj", "topic", "main", "CI_ENV,CI_TAG"] : List String) =
    sampleDetails.entityLabels ++ [stringsJoin ["CI_ENV", "CI_TAG"] ","] from by decide, h]
  congr 1

/-- C14 (amended): from a vector in which the series of the joined keys is absent, after the
first `n` of a run of successful calls (`n` at least 1) whose fetches all yield the same
non-empty sequence of matching keys, that series has value exactly `n` as long as `n` is at
most 2^53, so no later call sets it back to 1; in general it holds the smaller of `n` and
2^53. -/
theorem emitPipelineVariablesRuns_counts (gauge : GaugeVec) (details : projectDetails)
    (filterRegexp : String → Bool) (keys : List String)
    (calls : List (Int × pipelineVarsFetchOp)) (n : Nat)
    (habsent : gauge.metrics (details.entityLabels ++ [stringsJoin keys ","]) = none)
    (hkeys : keys ≠ [])
    (hcalls : ∀ c ∈ calls, ∃ vars, c.2 details.pID c.1 = ⟨vars, none⟩ ∧
      (vars.filter (fun v => filterRegexp v.Key)).map PipelineVariable.Key = keys)
    (h1 : 1 ≤ n) (hn : n ≤ calls.length) :
    (n ≤ 2 ^ 53 →
      (emitPipelineVariablesRuns gauge details filterRegexp (calls.take n)).metrics
        (details.entityLabels ++ [stringsJoin keys ","]) = some (n : Int)) ∧
    (emitPipelineVariablesRuns gauge details filterRegexp (calls.take n)).metrics
        (details.entityLabels ++ [stringsJoin keys ","]) = some (min (n : Int) (2 ^ 53)) := by
  have hne : calls.take n ≠ [] := by
    intro h
    have hlen : (calls.take n).length = n := List.length_take_of_le hn
    rw [h] at hlen
    simp at hlen
    omega
  have hv : gauge.value (details.entityLabels ++ [stringsJoin keys ","]) = 0 := by
    simp [GaugeVec.value, habsent]
  have hmin : (emitPipelineVariablesRuns gauge details filterRegexp (calls.take n)).metrics
      (details.entityLabels ++ [stringsJoin keys ","]) = some (min (n : Int) (2 ^ 53)) := by
    rw [emitPipelineVariablesRuns_metrics details filterRegexp keys hkeys (calls.take n) gauge
      hne (fun c hc => hcalls c (List.mem_of_mem_take hc)), hv, List.length_take_of_le hn,
      iterate_inc_zero]
  refine ⟨fun hb => ?_, hmin⟩
  rw [hmin]
  congr 1
  apply min_eq_left
  exact_mod_cast hb

/-- Scenario of the amended C14: three calls under the filter `^CI_.*`, all matching CI_ENV,
CI_TAG, leave the series at 3. -/
theorem emitPipelineVariablesRuns_counts_witness :
    GaugeVec.empty.metrics (sampleDetails.entityLabels ++
      [stringsJoin ["CI_ENV", "CI_TAG"] ","]) = none ∧
    (∀ c ∈ [((1 : Int), fetchReturning ciVariables), (2, fetchReturning ciOnlyVariables),
        (3, fetchReturning ciVariables)],
      ∃ vars, c.2 sampleDetails.pID c.1 = ⟨vars, none⟩ ∧
        (vars.filter (fun v => matchCI v.Key)).map PipelineVariable.Key =
          ["CI_ENV", "CI_TAG"]) ∧
    (emitPipelineVariablesRuns GaugeVec.empty sampleDetails matchCI
      [((1 : Int), fetchReturning ciVariables), (2, fetchReturning ciOnlyVariables),
        (3, fetchReturning ciVariables)]).metrics
      ["proj", "topic", "main", "CI_ENV,CI_TAG"] = some 3 := by
  have hcalls : ∀ c ∈ [((1 : Int), fetchReturning ciVariables),
      (2, fetchReturning ciOnlyVariables), (3, fetchReturning ciVariables)],
      ∃ vars, c.2 sampleDetails.pID c.1 = ⟨vars, none⟩ ∧
        (vars.filter (fun v => matchCI v.Key)).map PipelineVariable.Key =
          ["CI_ENV", "CI_TAG"] := by
    intro c hc
    simp only [List.mem_cons, List.mem_singleton, List.not_mem_nil, or_false] at hc
    rcases hc with rfl | rfl | rfl
    · exact ⟨ciVariables, rfl, by decide⟩
    · exact ⟨ciOnlyVariables, rfl, by decide⟩
    · exact ⟨ciVariables, rfl, by decide⟩
  exact ⟨rfl, hcalls,
    (emitPipelineVariablesRuns_counts GaugeVec.empty sampleDetails matchCI ["CI_ENV", "CI_TAG"]
      [((1 : Int), fetchReturning ciVariables), (2, fetchReturning ciOnlyVariables),
        (3, fetchReturning ciVariables)] 3 rfl (by decide) hcalls (by decide) (by decide)).1
      (by decide)⟩

theorem redactVariables_keys (filterRegexp : String → Bool) (vars : List PipelineVariable) :
    ((redactVariables filterRegexp vars).filter (fun v => filterRegexp v.Key)).map
        PipelineVariable.Key =
      (vars.filter (fun v => filterRegexp v.Key)).map PipelineVariable.Key := by
  induction vars with
  | nil => rfl
  | cons v vs ih =>
    by_cases hv : filterRegexp v.Key = true
    · simp only [redactVariables, List.filter_cons, hv, if_true, List.map_cons] at ih ⊢
      rw [ih]
    · simp only [redactVariables, List.filter_cons, hv] at ih ⊢
      exact ih

/-- Two successful fetches with the same sequence of matching keys give the same error,
the same vector and the same steps after the fetch. -/
theorem emitPipelineVariablesMetric_congr_keys (gauge : GaugeVec) (details : projectDetails)
    (p1 p2 : Int) (fetch1 fetch2 : pipelineVarsFetchOp) (filterRegexp : String → Bool)
    (vars1 vars2 : List PipelineVariable)
    (h1 : fetch1 details.pID p1 = ⟨vars1, none⟩) (h2 : fetch2 details.pID p2 = ⟨vars2, none⟩)
    (hseq : (vars1.filter (fun v => filterRegexp v.Key)).map PipelineVariable.Key =
      (vars2.filter (fun v => filterRegexp v.Key)).map PipelineVariable.Key) :
    (emitPipelineVariablesMetric gauge details p1 fetch1 filterRegexp).err =
      (emitPipelineVariablesMetric gauge details p2 fetch2 filterRegexp).err ∧
    (emitPipelineVariablesMetric gauge details p1 fetch1 filterRegexp).gauge =
      (emitPipelineVariablesMetric gauge details p2 fetch2 filterRegexp).gauge ∧
    (emitPipelineVariablesMetric gauge details p1 fetch1 filterRegexp).events.drop 2 =
      (emitPipelineVariablesMetric gauge details p2 fetch2 filterRegexp).events.drop 2 := by
  by_cases hk : (vars1.filter (fun v => filterRegexp v.Key)).map PipelineVariable.Key = []
  · rw [emitPipelineVariablesMetric_of_no_match gauge details p1 fetch1 filterRegexp vars1 h1 hk,
      emitPipelineVariablesMetric_of_no_match gauge details p2 fetch2 filterRegexp vars2 h2
        (hseq ▸ hk)]
    exact ⟨rfl, rfl, rfl⟩
  · rw [emitPipelineVariablesMetric_of_match gauge details p1 fetch1 filterRegexp vars1 h1 hk,
      emitPipelineVariablesMetric_of_match gauge details p2 fetch2 filterRegexp vars2 h2
        (hseq ▸ hk), hseq]
    exact ⟨rfl, rfl, rfl⟩

/-- C16 (noninterference): two successful fetches whose variable lists have the same sequence
of filter-matching keys make `emitPipelineVariablesMetric` return the same error and leave
the same vector from the same prior vector, writing the same series; the outcome is that of
a fetch returning only the matching keys with blank values, so neither a variable's value
nor a non-matching variable has any influence on it. -/
theorem emitPipelineVariablesMetric_noninterference (gauge : GaugeVec)
    (details : projectDetails) (p1 p2 : Int) (fetch1 fetch2 : pipelineVarsFetchOp)
    (filterRegexp : String → Bool) (vars1 vars2 : List PipelineVariable)
    (h1 : fetch1 details.pID p1 = ⟨vars1, none⟩) (h2 : fetch2 details.pID p2 = ⟨vars2, none⟩)
    (hseq : (vars1.filter (fun v => filterRegexp v.Key)).map PipelineVariable.Key =
      (vars2.filter (fun v => filterRegexp v.Key)).map PipelineVariable.Key) :
    ((emitPipelineVariablesMetric gauge details p1 fetch1 filterRegexp).err =
        (emitPipelineVariablesMetric gauge details p2 fetch2 filterRegexp).err ∧
      (emitPipelineVariablesMetric gauge details p1 fetch1 filterRegexp).gauge =
        (emitPipelineVariablesMetric gauge details p2 fetch2 filterRegexp).gauge ∧
      (emitPipelineVariablesMetric gauge details p1 fetch1 filterRegexp).events.drop 2 =
        (emitPipelineVariablesMetric gauge details p2 fetch2 filterRegexp).events.drop 2) ∧
    ((emitPipelineVariablesMetric gauge details p1 fetch1 filterRegexp).err =
        (emitPipelineVariablesMetric gauge details p1
          (fetchReturning (redactVariables filterRegexp vars1)) filterRegexp).err ∧
      (emitPipelineVariablesMetric gauge details p1 fetch1 filterRegexp).gauge =
        (emitPipelineVariablesMetric gauge details p1
          (fetchReturning (redactVariables filterRegexp vars1)) filterRegexp).gauge ∧
      (emitPipelineVariablesMetric gauge details p1 fetch1 filterRegexp).events =
        (emitPipelineVariablesMetric gauge details p1
          (fetchReturning (redactVariables filterRegexp vars1)) filterRegexp).events) := by
  refine ⟨emitPipelineVariablesMetric_congr_keys gauge details p1 p2 fetch1 fetch2 filterRegexp
    vars1 vars2 h1 h2 hseq, ?_⟩
  have hr : fetchReturning (redactVariables filterRegexp vars1) details.pID p1 =
      ⟨redactVariables filterRegexp vars1, none⟩ := rfl
  have hk := (redactVariables_keys filterRegexp vars1).symm
  by_cases hnil : (vars1.filter (fun v => filterRegexp v.Key)).map PipelineVariable.Key = []
  · rw [emitPipelineVariablesMetric_of_no_match gauge details p1 fetch1 filterRegexp vars1 h1
        hnil,
      emitPipelineVariablesMetric_of_no_match gauge details p1 _ filterRegexp _ hr (hk ▸ hnil)]
    exact ⟨rfl, rfl, rfl⟩
  · rw [emitPipelineVariablesMetric_of_match gauge details p1 fetch1 filterRegexp vars1 h1 hnil,
      emitPipelineVariablesMetric_of_match gauge details p1 _ filterRegexp _ hr (hk ▸ hnil),
      ← hk]
    exact ⟨rfl, rfl, rfl⟩

/-- Scenario of C16: CI_ENV, SECRET, CI_TAG against CI_ENV, CI_TAG with other values and
types, from the same prior vector. -/
theorem emitPipelineVariablesMetric_noninterference_witness :
    fetchReturning ciVariables sampleDetails.pID 1 = ⟨ciVariables, none⟩ ∧
    fetchReturning ciOnlyVariables sampleDetails.pID 2 = ⟨ciOnlyVariables, none⟩ ∧
    (ciVariables.filter (fun v => matchCI v.Key)).map PipelineVariable.Key =
      (ciOnlyVariables.filter (fun v => matchCI v.Key)).map PipelineVariable.Key ∧
    (emitPipelineVariablesMetric GaugeVec.empty sampleDetails 1 (fetchReturning ciVariables)
      matchCI).gauge =
      (emitPipelineVariablesMetric GaugeVec.empty sampleDetails 2
        (fetchReturning ciOnlyVariables) matchCI).gauge ∧
    (emitPipelineVariablesMetric GaugeVec.empty sampleDetails 1 (fetchReturning ciVariables)
      matchCI).events =
      [Event.rateLimit, Event.fetch 7 1, Event.inc ["proj", "topic", "main", "CI_ENV,CI_TAG"]] :=
  ⟨rfl, rfl, by decide,
    (emitPipelineVariablesMetric_noninterference GaugeVec.empty sampleDetails 1 2
      (fetchReturning ciVariables) (fetchReturning ciOnlyVariables) matchCI ciVariables
      ciOnlyVariables rfl rfl (by decide)).1.2.1,
    by decide⟩

/-! ## The joined label value -/

theorem intercalate_go_toList (rest : List String) :
    ∀ acc : String, (String.intercalate.go acc "," rest).toList =
      acc.toList ++ tailChars rest := by
  induction rest with
  | nil => intro acc; simp [String.intercalate.go, tailChars]
  | cons a rest ih =>
    intro acc
    rw [String.intercalate.go, ih]
    simp [tailChars, String.toList, String.data_append]

theorem stringsJoin_cons_toList (a : String) (rest : List String) :
    (stringsJoin (a :: rest) ",").toList = a.toList ++ tailChars rest := by
  simp only [stringsJoin, String.intercalate]
  exact intercalate_go_toList rest a

theorem tailChars_shape (rest : List String) :
    tailChars rest = [] ∨ ∃ t, tailChars rest = ',' :: t := by
  cases rest with
  | nil => exact Or.inl rfl
  | cons a rest => exact Or.inr ⟨_, rfl⟩

/-- Two comma-free words followed by remainders that are empty or start with a comma:
equal concatenations have equal words and equal remainders. -/
theorem split_at_comma (a1 : List Char) :
    ∀ (a2 r1 r2 : List Char), ',' ∉ a1 → ',' ∉ a2 →
      (r1 = [] ∨ ∃ t, r1 = ',' :: t) → (r2 = [] ∨ ∃ t, r2 = ',' :: t) →
      a1 ++ r1 = a2 ++ r2 → a1 = a2 ∧ r1 = r2 := by
  induction a1 with
  | nil =>
    intro a2 r1 r2 _ h2 hr1 _ heq
    cases a2 with
    | nil => exact ⟨rfl, by simpa using heq⟩
    | cons c a2 =>
      rcases hr1 with hr1 | ⟨t, hr1⟩
      · subst hr1
        simp at heq
      · subst hr1
        simp only [List.nil_append, List.cons_append, List.cons.injEq] at heq
        exact absurd (heq.1 ▸ List.mem_cons_self c a2) h2
  | cons c a1 ih =>
    intro a2 r1 r2 h1 h2 hr1 hr2 heq
    cases a2 with
    | nil =>
      rcases hr2 with hr2 | ⟨t, hr2⟩
      · subst hr2
        simp at heq
      · subst hr2
        simp only [List.nil_append, List.cons_append, List.cons.injEq] at heq
        exact absurd (heq.1 ▸ List.mem_cons_self c a1) h1
    | cons c2 a2 =>
      simp only [List.cons_append, List.cons.injEq] at heq
      obtain ⟨hc, ht⟩ := heq
      obtain ⟨ha, hr⟩ := ih a2 r1 r2 (fun h => h1 (List.mem_cons_of_mem c h))
        (fun h => h2 (List.mem_cons_of_mem c2 h)) hr1 hr2 ht
      exact ⟨by rw [hc, ha], hr⟩

theorem tailChars_injective (l1 : List String) :
    ∀ l2 : List String, (∀ k ∈ l1, commaFree k) → (∀ k ∈ l2, commaFree k) →
      tailChars l1 = tailChars l2 → l1 = l2 := by
  induction l1 with
  | nil =>
    intro l2 _ _ heq
    cases l2 with
    | nil => rfl
    | cons b l2 => simp [tailChars] at heq
  | cons a l1 ih =>
    intro l2 h1 h2 heq
    cases l2 with
    | nil => simp [tailChars] at heq
    | cons b l2 =>
      simp only [tailChars, List.cons.injEq, true_and] at heq
      obtain ⟨hab, hrest⟩ := split_at_comma a.toList b.toList (tailChars l1) (tailChars l2)
        (h1 a (List.mem_cons_self a l1)) (h2 b (List.mem_cons_self b l2))
        (tailChars_shape l1) (tailChars_shape l2) heq
      have hab' : a = b := String.ext hab
      rw [hab', ih l2 (fun k hk => h1 k (List.mem_cons_of_mem a hk))
        (fun k hk => h2 k (List.mem_cons_of_mem b hk)) hrest]

/-- C17 (label injectivity for comma-free keys): for two non-empty lists of keys none of
which contains a comma, equal joined label values, and so equal label tuples of one entity,
force the lists to be equal, so distinct key sequences address distinct series; the lists
with the single key `A,B` and with the keys A, B differ and have the same joined value. -/
theorem stringsJoin_injective_of_commaFree (keys1 keys2 : List String)
    (hne1 : keys1 ≠ []) (hne2 : keys2 ≠ [])
    (hc1 : ∀ k ∈ keys1, commaFree k) (hc2 : ∀ k ∈ keys2, commaFree k) :
    (stringsJoin keys1 "," = stringsJoin keys2 "," → keys1 = keys2) ∧
    (∀ details : projectDetails,
      augmentLabelValues details [stringsJoin keys1 ","] =
        augmentLabelValues details [stringsJoin keys2 ","] → keys1 = keys2) ∧
    (["A,B"] ≠ ["A", "B"] ∧ stringsJoin ["A,B"] "," = stringsJoin ["A", "B"] ",") := by
  have hinj : stringsJoin keys1 "," = stringsJoin keys2 "," → keys1 = keys2 := by
    intro heq
    cases keys1 with
    | nil => exact absurd rfl hne1
    | cons a l1 =>
      cases keys2 with
      | nil => exact absurd rfl hne2
      | cons b l2 =>
        have hl := congrArg String.toList heq
        rw [stringsJoin_cons_toList, stringsJoin_cons_toList] at hl
        obtain ⟨hab, hrest⟩ := split_at_comma a.toList b.toList (tailChars l1) (tailChars l2)
          (hc1 a (List.mem_cons_self a l1)) (hc2 b (List.mem_cons_self b l2))
          (tailChars_shape l1) (tailChars_shape l2) hl
        have hab' : a = b := String.ext hab
        rw [hab', tailChars_injective l1 l2 (fun k hk => hc1 k (List.mem_cons_of_mem a hk))
          (fun k hk => hc2 k (List.mem_cons_of_mem b hk)) hrest]
  refine ⟨hinj, ?_, by decide, by decide⟩
  intro details heq
  apply hinj
  simpa [augmentLabelValues] using heq

/-- Scenario of C17: the comma-free lists A, B and B, A have different joined values; the
lists with the single key `A,B` and with the keys A, B, the first of which is not
comma-free, are different and have the same joined value, hence address the same series. -/
theorem stringsJoin_injective_of_commaFree_witness :
    (["A", "B"] ≠ ([] : List String) ∧ ["B", "A"] ≠ ([] : List String) ∧
      (∀ k ∈ ["A", "B"], commaFree k) ∧ (∀ k ∈ ["B", "A"], commaFree k) ∧
      stringsJoin ["A", "B"] "," ≠ stringsJoin ["B", "A"] ",") ∧
    (¬ commaFree "A,B" ∧ ["A,B"] ≠ ["A", "B"] ∧
      stringsJoin ["A,B"] "," = stringsJoin ["A", "B"] "," ∧
      augmentLabelValues sampleDetails [stringsJoin ["A,B"] ","] =
        augmentLabelValues sampleDetails [stringsJoin ["A", "B"] ","]) :=
  ⟨⟨by decide, by decide, by decide, by decide,
      fun h => absurd
        ((stringsJoin_injective_of_commaFree ["A", "B"] ["B", "A"] (by decide) (by decide)
          (by decide) (by decide)).1 h) (by decide)⟩,
    ⟨by decide, by decide, by decide, by decide⟩⟩

end Exporter
